import Mathlib

/-!
Verification development for the geval expression-evaluation engine
(repository myfstd/geval).  The Go sources under src/core and the two
unnamed package files are shallowly embedded below: pure Go functions
become Lean functions, the pointer-linked stage tree becomes an
inductive tree, Go float64 arithmetic is modelled over the rationals,
and external Go standard-library services (regexp compilation, time
parsing) are passed in as explicit oracle parameters.  Code of the
repository that is referenced but absent from the sources
(evaluationStage.go with the operator implementations, lexerStream.go,
the sanitizing parameter adapter) is modelled from the specification;
every such definition carries a doc comment starting with
"Modelled from the spec:".
-/

namespace GEval

/-- Token kinds of the lexer, from src/core/TokenKind.go.  The source
constant named after expression prefixes is called `tPREF` here. -/
inductive tTokenKind where
  | tUNKNOWN
  | tPREF
  | tNUMERIC
  | tBOOLEAN
  | tSTRING
  | tPATTERN
  | tTIME
  | tVARIABLE
  | tFUNCTION
  | tSEPARATOR
  | tACCESSOR
  | tCOMPARATOR
  | tLOGICALOP
  | tMODIFIER
  | tCLAUSE
  | tCLAUSE_CLOSE
  | tTERNARY
deriving DecidableEq, Repr

open tTokenKind

/-- String rendering of a token kind (tString in src/core/TokenKind.go). -/
def tTokenKind.tString : tTokenKind → String
  | tPREF => "tPREFIX"
  | tNUMERIC => "tNUMERIC"
  | tBOOLEAN => "tBOOLEAN"
  | tSTRING => "tSTRING"
  | tPATTERN => "tPATTERN"
  | tTIME => "tTIME"
  | tVARIABLE => "tVARIABLE"
  | tFUNCTION => "tFUNCTION"
  | tSEPARATOR => "tSEPARATOR"
  | tCOMPARATOR => "tCOMPARATOR"
  | tLOGICALOP => "tLOGICALOP"
  | tMODIFIER => "tMODIFIER"
  | tCLAUSE => "tCLAUSE"
  | tCLAUSE_CLOSE => "tCLAUSE_CLOSE"
  | tTERNARY => "tTERNARY"
  | tACCESSOR => "tACCESSOR"
  | tUNKNOWN => "tUNKNOWN"

/-- Operator symbols, from src/core/OperatorSymbol.go. -/
inductive tOperatorSymbol where
  | tVALUE
  | tLITERAL
  | tNOOP
  | tEQ
  | tNEQ
  | tGT
  | tLT
  | tGTE
  | tLTE
  | tREQ
  | tNREQ
  | tIN
  | tAND
  | tOR
  | tPLUS
  | tMINUS
  | tBITWISE_AND
  | tBITWISE_OR
  | tBITWISE_XOR
  | tBITWISE_LSHIFT
  | tBITWISE_RSHIFT
  | tMULTIPLY
  | tDIVIDE
  | tMODULUS
  | tEXPONENT
  | tNEGATE
  | tINVERT
  | tBITWISE_NOT
  | tTERNARY_TRUE
  | tTERNARY_FALSE
  | tCOALESCE
  | tFUNCTIONAL
  | tACCESS
  | tSEPARATE
deriving DecidableEq, Repr

open tOperatorSymbol

/-- Operator precedences are a small enumeration in the source
(operatorPrecedence, iota-numbered); only equality of precedences is
ever consulted, so naturals model them directly. -/
abbrev operatorPrecedence := Nat

def noopPrecedence : operatorPrecedence := 0
def valuePrecedence : operatorPrecedence := 1
def functionalPrecedence : operatorPrecedence := 2
def prefPrecedence : operatorPrecedence := 3
def exponentialPrecedence : operatorPrecedence := 4
def additivePrecedence : operatorPrecedence := 5
def bitwisePrecedence : operatorPrecedence := 6
def bitwiseShiftPrecedence : operatorPrecedence := 7
def multiplicativePrecedence : operatorPrecedence := 8
def comparatorPrecedence : operatorPrecedence := 9
def ternaryPrecedence : operatorPrecedence := 10
def logicalAndPrecedence : operatorPrecedence := 11
def logicalOrPrecedence : operatorPrecedence := 12
def separatePrecedence : operatorPrecedence := 13

/-- Precedence lookup, from findOperatorPrecedenceForSymbol in
src/core/OperatorSymbol.go; symbols with no case (tLITERAL) fall
through to valuePrecedence. -/
def findOperatorPrecedenceForSymbol : tOperatorSymbol → operatorPrecedence
  | tNOOP => noopPrecedence
  | tVALUE => valuePrecedence
  | tEQ | tNEQ | tGT | tLT | tGTE | tLTE | tREQ | tNREQ | tIN => comparatorPrecedence
  | tAND => logicalAndPrecedence
  | tOR => logicalOrPrecedence
  | tBITWISE_AND | tBITWISE_OR | tBITWISE_XOR => bitwisePrecedence
  | tBITWISE_LSHIFT | tBITWISE_RSHIFT => bitwiseShiftPrecedence
  | tPLUS | tMINUS => additivePrecedence
  | tMULTIPLY | tDIVIDE | tMODULUS => multiplicativePrecedence
  | tEXPONENT => exponentialPrecedence
  | tBITWISE_NOT | tNEGATE | tINVERT => prefPrecedence
  | tCOALESCE | tTERNARY_TRUE | tTERNARY_FALSE => ternaryPrecedence
  | tACCESS | tFUNCTIONAL => functionalPrecedence
  | tSEPARATE => separatePrecedence
  | tLITERAL => valuePrecedence

/-- String rendering of an operator symbol (String in
src/core/OperatorSymbol.go). -/
def tOperatorSymbol.symString : tOperatorSymbol → String
  | tNOOP => "tNOOP"
  | tVALUE => "tVALUE"
  | tEQ => "="
  | tNEQ => "!="
  | tGT => ">"
  | tLT => "<"
  | tGTE => ">="
  | tLTE => "<="
  | tREQ => "=~"
  | tNREQ => "!~"
  | tAND => "&&"
  | tOR => "||"
  | tIN => "in"
  | tBITWISE_AND => "&"
  | tBITWISE_OR => "|"
  | tBITWISE_XOR => "^"
  | tBITWISE_LSHIFT => "<<"
  | tBITWISE_RSHIFT => ">>"
  | tPLUS => "+"
  | tMINUS => "-"
  | tMULTIPLY => "*"
  | tDIVIDE => "/"
  | tMODULUS => "%"
  | tEXPONENT => "**"
  | tNEGATE => "-"
  | tINVERT => "!"
  | tBITWISE_NOT => "~"
  | tTERNARY_TRUE => "?"
  | tTERNARY_FALSE => ":"
  | tCOALESCE => "??"
  | _ => ""

/-- Symbol tables from src/core/OperatorSymbol.go, as association
lists (Go maps iterated only by key lookup). -/
def comparatorSymbols : List (String × tOperatorSymbol) :=
  [("==", tEQ), ("!=", tNEQ), (">", tGT), (">=", tGTE), ("<", tLT), ("<=", tLTE),
   ("=~", tREQ), ("!~", tNREQ), ("in", tIN)]

def logicalSymbols : List (String × tOperatorSymbol) :=
  [("&&", tAND), ("||", tOR)]

def bitwiseSymbols : List (String × tOperatorSymbol) :=
  [("^", tBITWISE_XOR), ("&", tBITWISE_AND), ("|", tBITWISE_OR)]

def bitwiseShiftSymbols : List (String × tOperatorSymbol) :=
  [(">>", tBITWISE_RSHIFT), ("<<", tBITWISE_LSHIFT)]

def additiveSymbols : List (String × tOperatorSymbol) :=
  [("+", tPLUS), ("-", tMINUS)]

def multiplicativeSymbols : List (String × tOperatorSymbol) :=
  [("*", tMULTIPLY), ("/", tDIVIDE), ("%", tMODULUS)]

def exponentialSymbolsS : List (String × tOperatorSymbol) :=
  [("**", tEXPONENT)]

def prefSymbols : List (String × tOperatorSymbol) :=
  [("-", tNEGATE), ("!", tINVERT), ("~", tBITWISE_NOT)]

def ternarySymbols : List (String × tOperatorSymbol) :=
  [("?", tTERNARY_TRUE), (":", tTERNARY_FALSE), ("??", tCOALESCE)]

def modifierSymbols : List (String × tOperatorSymbol) :=
  [("+", tPLUS), ("-", tMINUS), ("*", tMULTIPLY), ("/", tDIVIDE), ("%", tMODULUS),
   ("**", tEXPONENT), ("&", tBITWISE_AND), ("|", tBITWISE_OR), ("^", tBITWISE_XOR),
   (">>", tBITWISE_RSHIFT), ("<<", tBITWISE_LSHIFT)]

def separatorSymbols : List (String × tOperatorSymbol) :=
  [(",", tSEPARATE)]

/-- Go map lookup returning the found flag. -/
def lookupSym (table : List (String × tOperatorSymbol)) (key : String) :
    Option tOperatorSymbol :=
  (table.find? (fun p => p.1 = key)).map (·.2)

/-- Go map indexing without the flag yields the zero value tVALUE when
the key is absent (as in optimizeTokens). -/
def lookupSymD (table : List (String × tOperatorSymbol)) (key : String) :
    tOperatorSymbol :=
  (lookupSym table key).getD tVALUE

/-- Modelled from the spec: a compiled regular expression
(regexp.Regexp, produced by the external Go regexp package) is an
opaque pair of its source text and its matching behaviour. -/
structure Pattern where
  source : String
  isMatch : String → Bool

/-- Modelled from the spec: values flow through the engine as a tagged
union mirroring the dynamic types Go puts into interface values:
IEEE-754 doubles (modelled by rationals), booleans, strings, compiled
patterns, timestamps, rune characters, Go ints (the short-circuit
holder is the int -1), accessor path lists, argument lists, callables
(represented by the registered name, resolved in a function
environment, because a strictly positive inductive cannot store the
closure itself), and the nil interface value. -/
inductive GoValue where
  | null
  | num (q : Rat)
  | bool (b : Bool)
  | str (s : String)
  | char (c : Char)
  | int (n : Int)
  | time (seconds : Int)
  | pattern (p : Pattern)
  | strList (segments : List String)
  | list (vs : List GoValue)
  | funcRef (name : String)

/-- Modelled from the spec: a user function takes the ordered argument
values and returns a value or an error. -/
abbrev tExpressionFunction := List GoValue → Except String GoValue

/-- An expression token, pairing a kind with a (possibly nil) value
(tExpressionToken in the source). -/
structure tExpressionToken where
  Kind : tTokenKind
  Value : GoValue

/-- Modelled from the spec: Go fmt %v rendering of an interface value,
used only inside error message text. -/
def goFormat : GoValue → String
  | .null => "<nil>"
  | .num q => if q.den = 1 then toString q.num else toString q
  | .bool b => if b then "true" else "false"
  | .str s => s
  | .char c => toString (Char.toNat c)
  | .int n => toString n
  | .time s => toString s
  | .pattern p => p.source
  | .strList ss => "[" ++ String.intercalate " " ss ++ "]"
  | .list _ => "[...]"
  | .funcRef n => n

/-- Lexer state row, from src/core/lexerState.go. -/
structure lexerState where
  isEOF : Bool
  isNullable : Bool
  kind : tTokenKind
  validNextKinds : List tTokenKind

/-- The static lexer state table validLexerStates from
src/core/lexerState.go, in source order. -/
def validLexerStates : List lexerState :=
  [ { kind := tUNKNOWN, isEOF := false, isNullable := true,
      validNextKinds :=
        [tPREF, tNUMERIC, tBOOLEAN, tVARIABLE, tPATTERN, tFUNCTION, tACCESSOR,
         tSTRING, tTIME, tCLAUSE] },
    { kind := tCLAUSE, isEOF := false, isNullable := true,
      validNextKinds :=
        [tPREF, tNUMERIC, tBOOLEAN, tVARIABLE, tPATTERN, tFUNCTION, tACCESSOR,
         tSTRING, tTIME, tCLAUSE, tCLAUSE_CLOSE] },
    { kind := tCLAUSE_CLOSE, isEOF := true, isNullable := true,
      validNextKinds :=
        [tCOMPARATOR, tMODIFIER, tNUMERIC, tBOOLEAN, tVARIABLE, tSTRING, tPATTERN,
         tTIME, tCLAUSE, tCLAUSE_CLOSE, tLOGICALOP, tTERNARY, tSEPARATOR] },
    { kind := tNUMERIC, isEOF := true, isNullable := false,
      validNextKinds :=
        [tMODIFIER, tCOMPARATOR, tLOGICALOP, tCLAUSE_CLOSE, tTERNARY, tSEPARATOR] },
    { kind := tBOOLEAN, isEOF := true, isNullable := false,
      validNextKinds :=
        [tMODIFIER, tCOMPARATOR, tLOGICALOP, tCLAUSE_CLOSE, tTERNARY, tSEPARATOR] },
    { kind := tSTRING, isEOF := true, isNullable := false,
      validNextKinds :=
        [tMODIFIER, tCOMPARATOR, tLOGICALOP, tCLAUSE_CLOSE, tTERNARY, tSEPARATOR] },
    { kind := tTIME, isEOF := true, isNullable := false,
      validNextKinds :=
        [tMODIFIER, tCOMPARATOR, tLOGICALOP, tCLAUSE_CLOSE, tSEPARATOR] },
    { kind := tPATTERN, isEOF := true, isNullable := false,
      validNextKinds :=
        [tMODIFIER, tCOMPARATOR, tLOGICALOP, tCLAUSE_CLOSE, tSEPARATOR] },
    { kind := tVARIABLE, isEOF := true, isNullable := false,
      validNextKinds :=
        [tMODIFIER, tCOMPARATOR, tLOGICALOP, tCLAUSE_CLOSE, tTERNARY, tSEPARATOR] },
    { kind := tMODIFIER, isEOF := false, isNullable := false,
      validNextKinds :=
        [tPREF, tNUMERIC, tVARIABLE, tFUNCTION, tACCESSOR, tSTRING, tBOOLEAN,
         tCLAUSE, tCLAUSE_CLOSE] },
    { kind := tCOMPARATOR, isEOF := false, isNullable := false,
      validNextKinds :=
        [tPREF, tNUMERIC, tBOOLEAN, tVARIABLE, tFUNCTION, tACCESSOR, tSTRING,
         tTIME, tCLAUSE, tCLAUSE_CLOSE, tPATTERN] },
    { kind := tLOGICALOP, isEOF := false, isNullable := false,
      validNextKinds :=
        [tPREF, tNUMERIC, tBOOLEAN, tVARIABLE, tFUNCTION, tACCESSOR, tSTRING,
         tTIME, tCLAUSE, tCLAUSE_CLOSE] },
    { kind := tPREF, isEOF := false, isNullable := false,
      validNextKinds :=
        [tNUMERIC, tBOOLEAN, tVARIABLE, tFUNCTION, tACCESSOR, tCLAUSE,
         tCLAUSE_CLOSE] },
    { kind := tTERNARY, isEOF := false, isNullable := false,
      validNextKinds :=
        [tPREF, tNUMERIC, tBOOLEAN, tSTRING, tTIME, tVARIABLE, tFUNCTION,
         tACCESSOR, tCLAUSE, tSEPARATOR] },
    { kind := tFUNCTION, isEOF := false, isNullable := false,
      validNextKinds := [tCLAUSE] },
    { kind := tACCESSOR, isEOF := true, isNullable := false,
      validNextKinds :=
        [tCLAUSE, tMODIFIER, tCOMPARATOR, tLOGICALOP, tCLAUSE_CLOSE, tTERNARY,
         tSEPARATOR] },
    { kind := tSEPARATOR, isEOF := false, isNullable := true,
      validNextKinds :=
        [tPREF, tNUMERIC, tBOOLEAN, tSTRING, tTIME, tVARIABLE, tFUNCTION,
         tACCESSOR, tCLAUSE] } ]

/-- Transition membership test, from canTransitionTo in
src/core/lexerState.go. -/
def lexerState.canTransitionTo (this : lexerState) (kind : tTokenKind) : Bool :=
  this.validNextKinds.contains kind

/-- State lookup by token kind, from getLexerStateForToken in
src/core/lexerState.go; the fallback row (index 0) with an error is
never reached because every kind has a row. -/
def getLexerStateForToken (kind : tTokenKind) : Except String lexerState :=
  match validLexerStates.find? (fun st => st.kind = kind) with
  | some st => .ok st
  | none =>
      .error ("No lexer state found for token kind " ++ kind.tString ++ "\n")

/-- Go interface equality with the untyped nil, used for the
Value == nil test in the checker. -/
def GoValue.isNull : GoValue → Bool
  | .null => true
  | _ => false

/-- The main loop body of checkExpressionSyntax, recursing over the
token list while carrying the current state and the previous token
(src/core/lexerState.go lines 319-360). -/
def checkGrammarLoop (state : lexerState) (lastToken : tExpressionToken) :
    List tExpressionToken → Except String Unit
  | [] =>
      if !state.isEOF then .error "Unexpected end of expression" else .ok ()
  | token :: rest =>
      if !state.canTransitionTo token.Kind then
        if lastToken.Kind = tVARIABLE ∧ token.Kind = tCLAUSE then
          .error ("Undefined function " ++ goFormat lastToken.Value)
        else
          .error ("Cannot transition token types from "
            ++ state.kind.tString ++ " [" ++ goFormat lastToken.Value ++ "]"
            ++ " to "
            ++ token.Kind.tString ++ " [" ++ goFormat token.Value ++ "]")
      else
        match getLexerStateForToken token.Kind with
        | .error e => .error e
        | .ok nextState =>
            if !nextState.isNullable ∧ token.Value.isNull then
              .error ("Token kind " ++ token.Kind.tString
                ++ " cannot have a nil value")
            else
              checkGrammarLoop nextState token rest

instance : Inhabited lexerState := ⟨⟨false, false, tUNKNOWN, []⟩⟩

/-- Modelled from the spec: the character stream of the lexer
(lexerStream in the source, a rune slice with a cursor).  Reading past
the end, which would panic in Go, yields the null character here. -/
structure lexerStream where
  source : List Char
  position : Nat

def newLexerStream (expression : String) : lexerStream :=
  ⟨expression.data, 0⟩

def lexerStream.canRead (s : lexerStream) : Bool :=
  s.position < s.source.length

def lexerStream.readCharacter (s : lexerStream) : Char × lexerStream :=
  (s.source.getD s.position (Char.ofNat 0), { s with position := s.position + 1 })

/-- Modelled from the spec: rewind moves the cursor backwards; the
source also calls it with -1 to skip a character. -/
def lexerStream.rewind (s : lexerStream) (amount : Int) : lexerStream :=
  { s with position := (Int.ofNat s.position - amount).toNat }

/-- Character class helpers from src/core/TokenKind.go.  Unicode
classes are modelled by the Lean character predicates. -/
def isNumericChar (c : Char) : Bool :=
  c.isDigit || c = '.'

def isHexDigitChar (c : Char) : Bool :=
  let l := c.toLower
  l.isDigit || l = 'a' || l = 'b' || l = 'c' || l = 'd' || l = 'e' || l = 'f'

def isNotQuote (c : Char) : Bool :=
  c ≠ '\'' && c ≠ '\"'

def isNotAlphanumeric (c : Char) : Bool :=
  !(c.isDigit || c.isAlpha || c = '(' || c = ')' || c = '[' || c = ']' ||
    !isNotQuote c)

def isVariableName (c : Char) : Bool :=
  c.isAlpha || c.isDigit || c = '_' || c = '.'

def isNotClosingBracket (c : Char) : Bool :=
  c ≠ ']'

def getFirstRune (candidate : String) : Char :=
  candidate.data.headD (Char.ofNat 0)

/-- The code point of a character, as a natural number; used to reason
about the character-class predicates of the lexer. -/
def charCode (c : Char) : Nat := c.val.toBitVec.toNat

/-- Character-level model of strings.Split(s, sep) for a one-character
separator: splits at every occurrence, keeping empty segments. -/
def splitOnCharAux (sep : Char) : List Char → List Char → List String
  | [], acc => [⟨acc.reverse⟩]
  | d :: ds, acc =>
      if d = sep then ⟨acc.reverse⟩ :: splitOnCharAux sep ds []
      else splitOnCharAux sep ds (d :: acc)

def splitOnChar (sep : Char) (s : String) : List String :=
  splitOnCharAux sep s.data []

/-- The buffered scanning loop readUntilFalse from
src/core/TokenKind.go: reads until the condition fails or whitespace
breaks the token; the flag records whether the loop was ended by the
condition rather than by stream exhaustion. -/
def readUntilFalse (s : lexerStream) (includeWhitespace breakWhitespace
    allowEscaping : Bool) (condition : Char → Bool) (buf : String) :
    String × Bool × lexerStream :=
  if h : s.position < s.source.length then
    let character := s.source.getD s.position (Char.ofNat 0)
    let s1 : lexerStream := { s with position := s.position + 1 }
    if allowEscaping && character = '\\' then
      let c2 := s1.source.getD s1.position (Char.ofNat 0)
      let s2 : lexerStream := { s1 with position := s1.position + 1 }
      readUntilFalse s2 includeWhitespace breakWhitespace allowEscaping condition
        (buf.push c2)
    else if character.isWhitespace && breakWhitespace && buf.length > 0 then
      (buf, true, s1)
    else if character.isWhitespace && !includeWhitespace then
      readUntilFalse s1 includeWhitespace breakWhitespace allowEscaping condition buf
    else if condition character then
      readUntilFalse s1 includeWhitespace breakWhitespace allowEscaping condition
        (buf.push character)
    else
      (buf, true, s1.rewind 1)
  else
    (buf, false, s)
termination_by s.source.length - s.position
decreasing_by
  all_goals simp_all
  all_goals omega

/-- Token-scanning wrapper readTokenUntilFalse from
src/core/TokenKind.go: rewinds one character and scans. -/
def readTokenUntilFalse (s : lexerStream) (condition : Char → Bool) :
    String × lexerStream :=
  let (ret, _, s1) := readUntilFalse (s.rewind 1) false true true condition ""
  (ret, s1)

def digitVal (c : Char) : Nat := c.toNat - Char.toNat '0'

def hexVal (c : Char) : Nat :=
  if c.isDigit then digitVal c else c.toLower.toNat - Char.toNat 'a' + 10

def natOfDecDigits (cs : List Char) : Nat :=
  cs.foldl (fun acc c => acc * 10 + digitVal c) 0

/-- Decimal literal parsing: models strconv.ParseFloat on the lexemes
the numeric scanner can produce (runs of digits and dots): at most one
dot and at least one digit. -/
def parseFloatLexeme (s : String) : Option Rat :=
  match splitOnChar '.' s with
  | [ip] =>
      if ip.data.all Char.isDigit && !ip.isEmpty then
        some (natOfDecDigits ip.data)
      else none
  | [ip, fp] =>
      if ip.data.all Char.isDigit && fp.data.all Char.isDigit &&
          !(ip.isEmpty && fp.isEmpty) then
        some ((natOfDecDigits ip.data : Rat)
          + (natOfDecDigits fp.data : Rat) / ((10 : Rat) ^ fp.length))
      else none
  | _ => none

/-- Hex literal parsing: models strconv.ParseUint with base 16 and bit
size 64 on the scanned hex lexeme. -/
def parseHexUint (s : String) : Option Nat :=
  if s.isEmpty || !s.data.all isHexDigitChar then none
  else
    let v := s.data.foldl (fun acc c => acc * 16 + hexVal c) 0
    if v < 2 ^ 64 then some v else none

/-- Classification of a scanned identifier lexeme, from the body of
readToken in src/core/TokenKind.go (the regular variable branch,
lines 217-277): boolean literals, the textual in comparator (the
source also maps the lexeme tIN to it), registered functions, dotted
accessor paths with the hanging-accessor and unexported-field checks,
and plain variables. -/
def classifyIdentifier (functions : List String) (tokenString : String)
    (s2 : lexerStream) : Except String (tExpressionToken × Bool × lexerStream) :=
  let kv : tTokenKind × GoValue :=
    if tokenString = "true" then (tBOOLEAN, .bool true)
    else if tokenString = "false" then (tBOOLEAN, .bool false)
    else (tVARIABLE, .str tokenString)
  let kv : tTokenKind × GoValue :=
    if tokenString = "in" || tokenString = "tIN" then (tCOMPARATOR, .str "in")
    else kv
  let kv : tTokenKind × GoValue :=
    if functions.contains tokenString then (tFUNCTION, .funcRef tokenString)
    else kv
  if tokenString.data.contains '.' && tokenString.data.indexOf '.' ≠ 0 then
    if tokenString.data.getLast? = some '.' then
      .error ("Hanging accessor on token " ++ tokenString)
    else
      let splits := splitOnChar '.' tokenString
      match (splits.drop 1).find?
          (fun seg => (getFirstRune seg).toUpper != getFirstRune seg) with
      | some seg =>
          .error ("Unable to access unexported field " ++ seg
            ++ " in token " ++ tokenString)
      | none => .ok (⟨tACCESSOR, .strList splits⟩, true, s2)
  else
    .ok (⟨kv.1, kv.2⟩, true, s2)

/-- Token scanner readToken from src/core/TokenKind.go.  External Go
services appear as parameters: tryTime models tryParseTime (the time
format zoo of the Go time package, returning Unix seconds), and the
function table is passed as its key set (the callable itself is
represented in the token by a funcRef carrying the name).  Error
message text follows the source with the decorative quote characters
omitted. -/
def readToken (tryTime : String → Option Int) (functions : List String)
    (state : lexerState) (s : lexerStream) :
    Except String (tExpressionToken × Bool × lexerStream) :=
  if h : s.position < s.source.length then
    let character := s.source.getD s.position (Char.ofNat 0)
    let s1 : lexerStream := { s with position := s.position + 1 }
    if character.isWhitespace then
      readToken tryTime functions state s1
    else if isNumericChar character then
      let numericTail := fun (st : lexerStream) =>
        let (tokenString, st2) := readTokenUntilFalse st isNumericChar
        match parseFloatLexeme tokenString with
        | none =>
            Except.error ("Unable to parse numeric value " ++ tokenString
              ++ " to float64\n")
        | some q => Except.ok ((⟨tNUMERIC, .num q⟩ : tExpressionToken), true, st2)
      if s1.canRead && character = '0' then
        let c2 := s1.source.getD s1.position (Char.ofNat 0)
        let s2 : lexerStream := { s1 with position := s1.position + 1 }
        if s2.canRead && c2 = 'x' then
          let (tokenString, _, s3) := readUntilFalse s2 false true true isHexDigitChar ""
          match parseHexUint tokenString with
          | none =>
              .error ("Unable to parse hex value " ++ tokenString
                ++ " to uint64\n")
          | some v => .ok (⟨tNUMERIC, .num (v : Rat)⟩, true, s3)
        else
          numericTail (s2.rewind 1)
      else
        numericTail s1
    else if character = ',' then
      .ok (⟨tSEPARATOR, .str ","⟩, true, s1)
    else if character = '[' then
      let (tokenValue, completed, s2) :=
        readUntilFalse s1 true false true isNotClosingBracket ""
      if !completed then .error "Unclosed parameter bracket"
      else .ok (⟨tVARIABLE, .str tokenValue⟩, true, s2.rewind (-1))
    else if character.isAlpha then
      let (tokenString, s2) := readTokenUntilFalse s1 isVariableName
      classifyIdentifier functions tokenString s2
    else if !(isNotQuote character) then
      let (tokenValue, completed, s2) := readUntilFalse s1 true false true isNotQuote ""
      if !completed then .error "Unclosed string literal"
      else
        let s3 := s2.rewind (-1)
        match tryTime tokenValue with
        | some seconds => .ok (⟨tTIME, .time seconds⟩, true, s3)
        | none => .ok (⟨tSTRING, .str tokenValue⟩, true, s3)
    else if character = '(' then
      .ok (⟨tCLAUSE, .char character⟩, true, s1)
    else if character = ')' then
      .ok (⟨tCLAUSE_CLOSE, .char character⟩, true, s1)
    else
      let (tokenString, s2) := readTokenUntilFalse s1 isNotAlphanumeric
      if state.canTransitionTo tPREF && (lookupSym prefSymbols tokenString).isSome then
        .ok (⟨tPREF, .str tokenString⟩, true, s2)
      else if (lookupSym modifierSymbols tokenString).isSome then
        .ok (⟨tMODIFIER, .str tokenString⟩, true, s2)
      else if (lookupSym logicalSymbols tokenString).isSome then
        .ok (⟨tLOGICALOP, .str tokenString⟩, true, s2)
      else if (lookupSym comparatorSymbols tokenString).isSome then
        .ok (⟨tCOMPARATOR, .str tokenString⟩, true, s2)
      else if (lookupSym ternarySymbols tokenString).isSome then
        .ok (⟨tTERNARY, .str tokenString⟩, true, s2)
      else
        .error ("Invalid token: " ++ tokenString)
  else
    .ok (⟨tUNKNOWN, .null⟩, false, s)
termination_by s.source.length - s.position
decreasing_by
  all_goals simp_all
  all_goals omega

/-- Paren balance check checkBalance from src/core/TokenKind.go. -/
def checkBalance (tokens : List tExpressionToken) : Except String Unit :=
  let parens : Int := tokens.foldl (fun acc token =>
    if token.Kind = tCLAUSE then acc + 1
    else if token.Kind = tCLAUSE_CLOSE then acc - 1
    else acc) 0
  if parens ≠ 0 then .error "Unbalanced parenthesis" else .ok ()

/-- The grammar checker checkExpressionSyntax from
src/core/lexerState.go: start at the tUNKNOWN row (index 0 of the
table) with a zero-valued previous token and walk the list. -/
def checkExpressionGrammar (tokens : List tExpressionToken) : Except String Unit :=
  checkGrammarLoop (validLexerStates.headI) ⟨tUNKNOWN, .null⟩ tokens

/-- Stage payload: the data captured by the operator closure a stage
carries.  Planned binary-operator stages carry no data; literal,
parameter, function and accessor stages carry what their maker
functions (makeLiteralStage, makeParameterStage, makeFunctionStage,
makeAccessorStage) close over. -/
inductive StageData where
  | none
  | lit (v : GoValue)
  | param (name : String)
  | func (name : String)
  | access (path : List String)

mutual

/-- A node of the stage tree (evaluationStage in the source).  The
operator, the type-check triple and the type error format are not
stored: the planner always derives them from the symbol (and the
closure data), so they are recomputed from the symbol here. -/
inductive evaluationStage where
  | mk (symbol : tOperatorSymbol) (data : StageData)
      (leftStage rightStage : OStage)

/-- A nullable child pointer of a stage (Go *evaluationStage); kept as
a mutual inductive rather than an Option so that every recursion over
the tree is plainly structural. -/
inductive OStage where
  | none
  | some (s : evaluationStage)

end

def evaluationStage.symbol : evaluationStage → tOperatorSymbol
  | .mk s _ _ _ => s

def evaluationStage.data : evaluationStage → StageData
  | .mk _ d _ _ => d

def evaluationStage.leftStage : evaluationStage → OStage
  | .mk _ _ l _ => l

def evaluationStage.rightStage : evaluationStage → OStage
  | .mk _ _ _ r => r

def OStage.isNone : OStage → Bool
  | .none => true
  | .some _ => false

def OStage.getD : OStage → evaluationStage → evaluationStage
  | .none, d => d
  | .some s, _ => s

/-- Modelled from the spec: parameter sources expose a single lookup
capability returning a value or an error. -/
abbrev tParameters := String → Except String GoValue

/-- Modelled from the spec: the function environment resolving
registered function names to callables. -/
abbrev FuncEnv := String → Option tExpressionFunction

/-- Modelled from the spec: dynamic type tests used as stage type
checks (isString, isRegexOrString, isBool, isFloat64, isArray in the
absent evaluationStage.go). -/
def isString : GoValue → Bool
  | .str _ => true
  | _ => false

def isRegexOrString : GoValue → Bool
  | .str _ => true
  | .pattern _ => true
  | _ => false

def isBool : GoValue → Bool
  | .bool _ => true
  | _ => false

def isFloat64 : GoValue → Bool
  | .num _ => true
  | _ => false

def isArray : GoValue → Bool
  | .list _ => true
  | _ => false

/-- Modelled from the spec: the combined comparator check admits two
numbers or two strings. -/
def comparatorTypeCheck (left right : GoValue) : Bool :=
  (isFloat64 left && isFloat64 right) || (isString left && isString right)

/-- Modelled from the spec: the combined addition check admits two
numbers or two strings. -/
def additionTypeCheck (left right : GoValue) : Bool :=
  (isFloat64 left && isFloat64 right) || (isString left && isString right)

/-- Type check triple, from the typeChecks struct in
src/core/lexerState.go. -/
structure typeChecks where
  left : Option (GoValue → Bool) := Option.none
  right : Option (GoValue → Bool) := Option.none
  combined : Option (GoValue → GoValue → Bool) := Option.none

/-- Symbol to type check mapping, from findTypeChecks in
src/core/lexerState.go. -/
def findTypeChecks : tOperatorSymbol → typeChecks
  | tGT | tLT | tGTE | tLTE => { combined := some comparatorTypeCheck }
  | tREQ | tNREQ => { left := some isString, right := some isRegexOrString }
  | tAND | tOR => { left := some isBool, right := some isBool }
  | tIN => { right := some isArray }
  | tBITWISE_LSHIFT | tBITWISE_RSHIFT | tBITWISE_OR | tBITWISE_AND
  | tBITWISE_XOR => { left := some isFloat64, right := some isFloat64 }
  | tPLUS => { combined := some additionTypeCheck }
  | tMINUS | tMULTIPLY | tDIVIDE | tMODULUS | tEXPONENT =>
      { left := some isFloat64, right := some isFloat64 }
  | tNEGATE => { right := some isFloat64 }
  | tINVERT => { right := some isBool }
  | tBITWISE_NOT => { right := some isFloat64 }
  | tTERNARY_TRUE => { left := some isBool }
  | _ => {}

/-- Modelled from the spec: the per-level type error format templates
(the format strings live in the absent evaluationStage.go; only their
identity matters here). -/
def modifierErrorFormat : String := "Value %v cannot be used with the modifier %v"

def comparatorErrorFormat : String := "Value %v cannot be used with the comparator %v"

def logicalErrorFormat : String := "Value %v cannot be used with the logical operator %v"

def prefErrorFormat : String := "Value %v cannot be used with the prefix %v"

def ternaryErrorFormat : String := "Value %v cannot be used with the ternary operator %v"

/-- Type error format of a stage: each operator symbol belongs to
exactly one planner level, whose format the planner stores into the
stage. -/
def errorFormatForSymbol : tOperatorSymbol → String
  | tNEGATE | tINVERT | tBITWISE_NOT => prefErrorFormat
  | tEXPONENT | tMULTIPLY | tDIVIDE | tMODULUS | tPLUS | tMINUS
  | tBITWISE_LSHIFT | tBITWISE_RSHIFT | tBITWISE_AND | tBITWISE_OR
  | tBITWISE_XOR => modifierErrorFormat
  | tEQ | tNEQ | tGT | tLT | tGTE | tLTE | tREQ | tNREQ | tIN =>
      comparatorErrorFormat
  | tAND | tOR => logicalErrorFormat
  | tTERNARY_TRUE | tTERNARY_FALSE | tCOALESCE => ternaryErrorFormat
  | tFUNCTIONAL => "Unable to run function %v: %v"
  | tACCESS => "Unable to access parameter field or method %v: %v"
  | _ => ""

/-- Modelled from the spec: two-argument fmt.Sprintf with %v verbs. -/
def sprintf2 (format a b : String) : String :=
  match format.splitOn "%v" with
  | [p0] => p0
  | [p0, p1] => p0 ++ a ++ p1
  | p0 :: p1 :: p2 :: rest =>
      p0 ++ a ++ p1 ++ b ++ String.intercalate "%v" (p2 :: rest)
  | [] => format

mutual

/-- Modelled from the spec: structural equality of runtime values
(reflect.DeepEqual); function values never compare equal, compiled
patterns compare by their source text. -/
def goDeepEqual : GoValue → GoValue → Bool
  | .null, .null => true
  | .num a, .num b => a = b
  | .bool a, .bool b => a = b
  | .str a, .str b => a = b
  | .char a, .char b => a = b
  | .int a, .int b => a = b
  | .time a, .time b => a = b
  | .pattern a, .pattern b => a.source = b.source
  | .strList a, .strList b => a = b
  | .list a, .list b => goDeepEqualList a b
  | _, _ => false

/-- List part of goDeepEqual. -/
def goDeepEqualList : List GoValue → List GoValue → Bool
  | [], [] => true
  | a :: as1, b :: bs1 => goDeepEqual a b && goDeepEqualList as1 bs1
  | _, _ => false
end

/-- Truncation of a rational toward zero, modelling Go float-to-int
conversion. -/
def ratTrunc (q : Rat) : Int :=
  if q ≥ 0 then q.floor else -(Rat.floor (-q))

/-- Modelled from the spec: conversion of a double to an unsigned
64-bit integer, as the bitwise operators perform it (truncate, wrap
modulo 2^64). -/
def ratToUint64 (q : Rat) : Nat :=
  ((ratTrunc q) % ((2 : Int) ^ 64)).toNat

/-- Reinterpret an unsigned 64-bit value as signed. -/
def int64OfUint64 (n : Nat) : Int :=
  if n < 2 ^ 63 then (n : Int) else (n : Int) - 2 ^ 64

/-- Modelled from the spec: Go math.Mod, truncated remainder; the
IEEE NaN of a zero divisor is modelled as zero. -/
def ratMod (a b : Rat) : Rat :=
  if b = 0 then 0 else a - b * (ratTrunc (a / b) : Rat)

/-- Modelled from the spec: real-valued pow on the rational model;
integral exponents are exact, the transcendental cases are modelled
as zero. -/
def ratPow (a b : Rat) : Rat :=
  if b.den = 1 then
    if b.num ≥ 0 then a ^ b.num.toNat else (a ^ (-b.num).toNat)⁻¹
  else 0

/-- Go interface comparison against a boolean constant. -/
def GoValue.isBoolConst (v : GoValue) (b : Bool) : Bool :=
  match v with
  | .bool x => x = b
  | _ => false

/-- Go interface comparison against the short-circuit holder, the
int -1 (part_001 of the unnamed package files). -/
def GoValue.isHolder : GoValue → Bool
  | .int n => n = -1
  | _ => false

/-- Modelled from the spec: the operator callable of a stage, by
symbol and closure data (evaluationStage.go is absent from the
sources; semantics follow spec section 4.4).  The function
environment resolves function references. -/
def stageOperator (funcs : FuncEnv) (symbol : tOperatorSymbol)
    (data : StageData) (left right : GoValue) (parameters : tParameters) :
    Except String GoValue :=
  match symbol, data with
  | tLITERAL, .lit v => .ok v
  | tVALUE, .param name => parameters name
  | tNOOP, _ => .ok right
  | tFUNCTIONAL, .func name =>
      match funcs name with
      | Option.none => .error ("Modelled: unknown function " ++ name)
      | some f =>
          match right with
          | .null => f []
          | .list vs => f vs
          | v => f [v]
  | tACCESS, .access path =>
      match path with
      | [] => .error "Modelled: empty accessor path"
      | p :: rest =>
          match parameters p with
          | .error e => .error e
          | .ok v =>
              if rest.isEmpty then .ok v
              else .error "Modelled from the spec: reflection-based field and method access is outside the model"
  | tEQ, _ => .ok (.bool (goDeepEqual left right))
  | tNEQ, _ => .ok (.bool (!goDeepEqual left right))
  | tGT, _ =>
      match left, right with
      | .str a, .str b => .ok (.bool (decide (b < a)))
      | .num a, .num b => .ok (.bool (decide (b < a)))
      | _, _ => .error "Modelled: comparator operand type"
  | tLT, _ =>
      match left, right with
      | .str a, .str b => .ok (.bool (decide (a < b)))
      | .num a, .num b => .ok (.bool (decide (a < b)))
      | _, _ => .error "Modelled: comparator operand type"
  | tGTE, _ =>
      match left, right with
      | .str a, .str b => .ok (.bool (decide (b ≤ a)))
      | .num a, .num b => .ok (.bool (decide (b ≤ a)))
      | _, _ => .error "Modelled: comparator operand type"
  | tLTE, _ =>
      match left, right with
      | .str a, .str b => .ok (.bool (decide (a ≤ b)))
      | .num a, .num b => .ok (.bool (decide (a ≤ b)))
      | _, _ => .error "Modelled: comparator operand type"
  | tREQ, _ =>
      match left, right with
      | .str a, .pattern p => .ok (.bool (p.isMatch a))
      | _, _ => .error "Modelled: on-the-fly regex compilation is outside the model"
  | tNREQ, _ =>
      match left, right with
      | .str a, .pattern p => .ok (.bool (!p.isMatch a))
      | _, _ => .error "Modelled: on-the-fly regex compilation is outside the model"
  | tIN, _ =>
      match right with
      | .list vs => .ok (.bool (vs.any (goDeepEqual left)))
      | _ => .error "Modelled: in right operand type"
  | tAND, _ =>
      match left, right with
      | .bool a, .bool b => .ok (.bool (a && b))
      | _, _ => .error "Modelled: logical operand type"
  | tOR, _ =>
      match left, right with
      | .bool a, .bool b => .ok (.bool (a || b))
      | _, _ => .error "Modelled: logical operand type"
  | tPLUS, _ =>
      match left, right with
      | .str a, .str b => .ok (.str (a ++ b))
      | .num a, .num b => .ok (.num (a + b))
      | _, _ => .error "Modelled: addition operand type"
  | tMINUS, _ =>
      match left, right with
      | .num a, .num b => .ok (.num (a - b))
      | _, _ => .error "Modelled: arithmetic operand type"
  | tMULTIPLY, _ =>
      match left, right with
      | .num a, .num b => .ok (.num (a * b))
      | _, _ => .error "Modelled: arithmetic operand type"
  | tDIVIDE, _ =>
      match left, right with
      | .num a, .num b => .ok (.num (a / b))
      | _, _ => .error "Modelled: arithmetic operand type"
  | tMODULUS, _ =>
      match left, right with
      | .num a, .num b => .ok (.num (ratMod a b))
      | _, _ => .error "Modelled: arithmetic operand type"
  | tEXPONENT, _ =>
      match left, right with
      | .num a, .num b => .ok (.num (ratPow a b))
      | _, _ => .error "Modelled: arithmetic operand type"
  | tBITWISE_AND, _ =>
      match left, right with
      | .num a, .num b =>
          .ok (.num (int64OfUint64 (Nat.land (ratToUint64 a) (ratToUint64 b)) : Rat))
      | _, _ => .error "Modelled: bitwise operand type"
  | tBITWISE_OR, _ =>
      match left, right with
      | .num a, .num b =>
          .ok (.num (int64OfUint64 (Nat.lor (ratToUint64 a) (ratToUint64 b)) : Rat))
      | _, _ => .error "Modelled: bitwise operand type"
  | tBITWISE_XOR, _ =>
      match left, right with
      | .num a, .num b =>
          .ok (.num (int64OfUint64 (Nat.xor (ratToUint64 a) (ratToUint64 b)) : Rat))
      | _, _ => .error "Modelled: bitwise operand type"
  | tBITWISE_LSHIFT, _ =>
      match left, right with
      | .num a, .num b =>
          let s := ratToUint64 b
          .ok (.num ((if s ≥ 64 then 0 else (Nat.shiftLeft (ratToUint64 a) s) % 2 ^ 64 : Nat) : Rat))
      | _, _ => .error "Modelled: bitwise operand type"
  | tBITWISE_RSHIFT, _ =>
      match left, right with
      | .num a, .num b =>
          .ok (.num ((Nat.shiftRight (ratToUint64 a) (ratToUint64 b) : Nat) : Rat))
      | _, _ => .error "Modelled: bitwise operand type"
  | tNEGATE, _ =>
      match right with
      | .num b => .ok (.num (-b))
      | _ => .error "Modelled: negation operand type"
  | tINVERT, _ =>
      match right with
      | .bool b => .ok (.bool (!b))
      | _ => .error "Modelled: inversion operand type"
  | tBITWISE_NOT, _ =>
      match right with
      | .num b => .ok (.num (int64OfUint64 ((Nat.xor (ratToUint64 b) (2 ^ 64 - 1))) : Rat))
      | _ => .error "Modelled: bitwise not operand type"
  | tTERNARY_TRUE, _ =>
      if left.isBoolConst true then .ok right else .ok .null
  | tTERNARY_FALSE, _ =>
      if !left.isNull then .ok left else .ok right
  | tCOALESCE, _ =>
      if !left.isNull then .ok left else .ok right
  | tSEPARATE, _ =>
      match left with
      | .list vs => .ok (.list (vs ++ [right]))
      | _ => .ok (.list [left, right])
  | _, _ => .error "Modelled: operator and stage data mismatch"

/-- Modelled from the spec: the short-circuit test of the evaluator
covers exactly the five symbols of the short-circuit table. -/
def evaluationStage.isShortCircuitable (stage : evaluationStage) : Bool :=
  match stage.symbol with
  | tAND | tOR | tTERNARY_TRUE | tTERNARY_FALSE | tCOALESCE => true
  | _ => false

/-- Unary type check application, from typeCheck in part_001 of the
unnamed package files. -/
def typeCheckFn (check : Option (GoValue → Bool)) (value : GoValue)
    (symbol : tOperatorSymbol) (format : String) : Except String Unit :=
  match check with
  | Option.none => .ok ()
  | some c =>
      if c value then .ok ()
      else .error (sprintf2 format (goFormat value) symbol.symString)

/-- Short-circuit step of the evaluator (part_001 of the unnamed
package files, the switch under isShortCircuitable): after the left
child's value is known, either return an early result (AND with false,
OR with true, COALESCE with non-nil) or choose the initial right value
(the short-circuit holder for a ternary whose right side must be
skipped, the nil value otherwise). -/
def shortCircuitStep (stage : evaluationStage) (left : GoValue) :
    Sum GoValue GoValue :=
  if stage.isShortCircuitable then
    match stage.symbol with
    | tAND => if left.isBoolConst false then .inl (.bool false) else .inr .null
    | tOR => if left.isBoolConst true then .inl (.bool true) else .inr .null
    | tCOALESCE => if !left.isNull then .inl left else .inr .null
    | tTERNARY_TRUE =>
        if left.isBoolConst false then .inr (.int (-1)) else .inr .null
    | tTERNARY_FALSE => if !left.isNull then .inr (.int (-1)) else .inr .null
    | _ => .inr .null
  else .inr .null

/-- Type checking and operator invocation tail of the evaluator
(part_001 of the unnamed package files): when ChecksTypes is set run
the combined check or the two unary checks, then invoke the
operator. -/
def finishStage (funcs : FuncEnv) (checksTypes : Bool)
    (symbol : tOperatorSymbol) (data : StageData) (left right : GoValue)
    (parameters : tParameters) : Except String GoValue :=
  let checks := findTypeChecks symbol
  let fmtStr := errorFormatForSymbol symbol
  if checksTypes then
    match checks.combined with
    | Option.none =>
      match typeCheckFn checks.left left symbol fmtStr with
      | .error e => .error e
      | .ok _ =>
        match typeCheckFn checks.right right symbol fmtStr with
        | .error e => .error e
        | .ok _ => stageOperator funcs symbol data left right parameters
    | some c =>
      if !c left right then
        .error (sprintf2 fmtStr (goFormat left) symbol.symString)
      else stageOperator funcs symbol data left right parameters
  else stageOperator funcs symbol data left right parameters

/-- Combination step of the evaluator (part_001 of the unnamed package
files): given the evaluation outcome of the left child, the
short-circuit rules either return early or choose the initial right
value (the short-circuit holder marks a skipped right side); the right
child's outcome is consulted only when the right side is present and
not skipped, then the type checks run and the operator is invoked.  In
this pure model both child outcomes are supplied eagerly and the right
one is simply discarded on the short-circuited paths, which yields the
same results as the source's lazy evaluation. -/
def evalCombine (funcs : FuncEnv) (checksTypes : Bool)
    (symbol : tOperatorSymbol) (data : StageData) (l r : OStage)
    (parameters : tParameters)
    (leftRes rightRes : Except String GoValue) : Except String GoValue :=
  match leftRes with
  | .error e => .error e
  | .ok left =>
    match shortCircuitStep (.mk symbol data l r) left with
    | .inl v => .ok v
    | .inr right0 =>
      match (if !right0.isHolder && !r.isNone then rightRes else .ok right0) with
      | .error e => .error e
      | .ok right => finishStage funcs checksTypes symbol data left right parameters

mutual

/-- The stage evaluator, from evaluateStage in part_001 of the unnamed
package files: evaluate the left child, apply the short-circuit rules,
evaluate the right child unless it is absent or was replaced by the
short-circuit holder, then run the type checks and invoke the
operator. -/
def evaluateStage (funcs : FuncEnv) (checksTypes : Bool)
    (stage : evaluationStage) (parameters : tParameters) :
    Except String GoValue :=
  match stage with
  | .mk symbol data l r =>
      evalCombine funcs checksTypes symbol data l r parameters
        (evaluateOStage funcs checksTypes l parameters)
        (evaluateOStage funcs checksTypes r parameters)

/-- Child evaluation: an absent child contributes the nil value. -/
def evaluateOStage (funcs : FuncEnv) (checksTypes : Bool)
    (o : OStage) (parameters : tParameters) : Except String GoValue :=
  match o with
  | .none => .ok .null
  | .some s => evaluateStage funcs checksTypes s parameters

end

/-- Map-backed parameter source (tMapParameters in
src/core/parameters.go); the source message quotes the name, the
quote characters are omitted here. -/
def tMapParameters (m : List (String × GoValue)) : tParameters := fun name =>
  match m.find? (fun p => p.1 = name) with
  | some p => .ok p.2
  | Option.none => .error ("No parameter " ++ name ++ " found.")

/-- Modelled from the spec: the sanitizing adapter normalizes fetched
Go integer values to doubles and passes everything else through. -/
def sanitizeValue : GoValue → GoValue
  | .int n => .num (n : Rat)
  | v => v

/-- Modelled from the spec: sanitizedParameters wraps a parameter
source with sanitizeValue. -/
def sanitizedParameters (p : tParameters) : tParameters := fun name =>
  match p name with
  | .error e => .error e
  | .ok v => .ok (sanitizeValue v)

/-- The shared empty parameter map tDUMMY_PARAMETERS from part_001 of
the unnamed package files. -/
def tDUMMY_PARAMETERS : tParameters := tMapParameters []

/-- The empty function environment. -/
def emptyFuncs : FuncEnv := fun _ => Option.none

/-- Modelled from the spec: the nil parameter source handed to
operators during constant folding (the fold calls operators with nil
parameters). -/
def nilParams : tParameters := fun _ =>
  .error "Modelled: nil parameters"

/-- Cursor-style token stream from the source (tokenStream in
src/core/lexerState.go).  Reading past the end, which panics in Go,
yields a zero token here; rewinding below zero, likewise impossible on
the paths the compiled pipeline takes, saturates at zero. -/
structure tokenStream where
  tokens : List tExpressionToken
  index : Nat

def newTokenStream (tokens : List tExpressionToken) : tokenStream :=
  ⟨tokens, 0⟩

def tokenStream.rewind (t : tokenStream) : tokenStream :=
  { t with index := t.index - 1 }

def tokenStream.next (t : tokenStream) : tExpressionToken × tokenStream :=
  (t.tokens.getD t.index ⟨tUNKNOWN, .null⟩, { t with index := t.index + 1 })

def tokenStream.hasNext (t : tokenStream) : Bool :=
  t.index < t.tokens.length

abbrev PlanResult := Except String (OStage × tokenStream)

/-- Planner precedents are stream transformers (precedent in
src/core/lexerState.go). -/
abbrev precedent := tokenStream → PlanResult

/-- Generic precedence level parser planPrecedenceLevel from
src/core/lexerState.go: parse the left operand with the next-higher
level, peek one token, and either emit a stage with a right operand
parsed by the same level or rewind and return the left operand.  The
trailing rewind also fires when the stream is exhausted, exactly as in
the source. -/
def planPrecedenceLevel (stream : tokenStream)
    (validSymbols : List (String × tOperatorSymbol))
    (validKinds : List tTokenKind)
    (rightPrecedent : precedent) (leftPrecedent : Option precedent) : PlanResult :=
  let leftStep : PlanResult :=
    match leftPrecedent with
    | Option.none => .ok (.none, stream)
    | some lp => lp stream
  match leftStep with
  | .error e => .error e
  | .ok (leftStage, s1) =>
    if s1.hasNext then
      let (token, s2) := s1.next
      if validKinds ≠ [] && !(validKinds.contains token.Kind) then
        .ok (leftStage, s2.rewind)
      else
        match token.Value with
        | .str sv =>
          match lookupSym validSymbols sv with
          | Option.none => .ok (leftStage, s2.rewind)
          | some symbol =>
            match rightPrecedent s2 with
            | .error e => .error e
            | .ok (rightStage, s3) =>
              .ok (.some (.mk symbol .none leftStage rightStage), s3)
        | _ => .ok (leftStage, s2.rewind)
    else
      .ok (leftStage, s1.rewind)

/-- Fuel exhaustion marker: the planner functions are fueled because
the Go termination argument (the cursor advances through the finite
token list) is metatheoretic; compile entry points always supply
enough fuel. -/
def planFuelMsg : String := "Modelled: plan fuel exhausted"

mutual

/-- Prefix level (planPrefix in the source init block). -/
def planPref : Nat → precedent
  | 0, _ => .error planFuelMsg
  | f + 1, stream =>
      planPrecedenceLevel stream prefSymbols [tPREF] (planFunction f) Option.none

/-- Exponent level (planExponential in the source init block). -/
def planExponential : Nat → precedent
  | 0, _ => .error planFuelMsg
  | f + 1, stream =>
      planPrecedenceLevel stream exponentialSymbolsS [tMODIFIER]
        (planExponential f) (some (planFunction f))

def planMultiplicative : Nat → precedent
  | 0, _ => .error planFuelMsg
  | f + 1, stream =>
      planPrecedenceLevel stream multiplicativeSymbols [tMODIFIER]
        (planMultiplicative f) (some (planExponential f))

def planAdditive : Nat → precedent
  | 0, _ => .error planFuelMsg
  | f + 1, stream =>
      planPrecedenceLevel stream additiveSymbols [tMODIFIER]
        (planAdditive f) (some (planMultiplicative f))

def planShift : Nat → precedent
  | 0, _ => .error planFuelMsg
  | f + 1, stream =>
      planPrecedenceLevel stream bitwiseShiftSymbols [tMODIFIER]
        (planShift f) (some (planAdditive f))

def planBitwise : Nat → precedent
  | 0, _ => .error planFuelMsg
  | f + 1, stream =>
      planPrecedenceLevel stream bitwiseSymbols [tMODIFIER]
        (planBitwise f) (some (planShift f))

def planComparator : Nat → precedent
  | 0, _ => .error planFuelMsg
  | f + 1, stream =>
      planPrecedenceLevel stream comparatorSymbols [tCOMPARATOR]
        (planComparator f) (some (planBitwise f))

def planLogicalAnd : Nat → precedent
  | 0, _ => .error planFuelMsg
  | f + 1, stream =>
      planPrecedenceLevel stream [("&&", tAND)] [tLOGICALOP]
        (planLogicalAnd f) (some (planComparator f))

def planLogicalOr : Nat → precedent
  | 0, _ => .error planFuelMsg
  | f + 1, stream =>
      planPrecedenceLevel stream [("||", tOR)] [tLOGICALOP]
        (planLogicalOr f) (some (planLogicalAnd f))

def planTernary : Nat → precedent
  | 0, _ => .error planFuelMsg
  | f + 1, stream =>
      planPrecedenceLevel stream ternarySymbols [tTERNARY]
        (planTernary f) (some (planLogicalOr f))

def planSeparator : Nat → precedent
  | 0, _ => .error planFuelMsg
  | f + 1, stream =>
      planPrecedenceLevel stream separatorSymbols [tSEPARATOR]
        (planSeparator f) (some (planTernary f))

/-- Function level planFunction from src/core/lexerState.go: a
function token wraps the accessor-level operand in a tFUNCTIONAL
stage.  The unguarded stream read of the source reads the zero token
at stream end here. -/
def planFunction : Nat → precedent
  | 0, _ => .error planFuelMsg
  | f + 1, stream =>
      let (token, s2) := stream.next
      if token.Kind ≠ tFUNCTION then
        planAccessor f s2.rewind
      else
        match token.Value with
        | .funcRef name =>
          match planAccessor f s2 with
          | .error e => .error e
          | .ok (rightStage, s3) =>
              .ok (.some (.mk tFUNCTIONAL (.func name) .none rightStage), s3)
        | _ => .error "Modelled: function token without callable"

/-- Accessor level planAccessor from src/core/lexerState.go: an
accessor token becomes a tACCESS stage; a directly following clause
token makes the full sub-expression its argument list. -/
def planAccessor : Nat → precedent
  | 0, _ => .error planFuelMsg
  | f + 1, stream =>
      if !stream.hasNext then .ok (.none, stream)
      else
        let (token, s2) := stream.next
        if token.Kind ≠ tACCESSOR then
          planValue f s2.rewind
        else
          match token.Value with
          | .strList path =>
            if s2.hasNext then
              let (otherToken, s3) := s2.next
              if otherToken.Kind = tCLAUSE then
                match planTokens f s3.rewind with
                | .error e => .error e
                | .ok (rightStage, s4) =>
                    .ok (.some (.mk tACCESS (.access path) .none rightStage), s4)
              else
                .ok (.some (.mk tACCESS (.access path) .none .none), s3.rewind)
            else
              .ok (.some (.mk tACCESS (.access path) .none .none), s2)
          | _ => .error "Modelled: accessor token without path"

/-- Value level planValue from src/core/lexerState.go: terminals,
parenthesised sub-expressions (wrapped in a tNOOP stage whose only
child is the right one), and deferral back to the prefix level. -/
def planValue : Nat → precedent
  | 0, _ => .error planFuelMsg
  | f + 1, stream =>
      if !stream.hasNext then .ok (.none, stream)
      else
        let (token, s2) := stream.next
        match token.Kind with
        | tCLAUSE =>
            match planTokens f s2 with
            | .error e => .error e
            | .ok (ret, s3) =>
                let (_, s4) := s3.next
                .ok (.some (.mk tNOOP .none .none ret), s4)
        | tCLAUSE_CLOSE => .ok (.none, s2.rewind)
        | tVARIABLE =>
            match token.Value with
            | .str name =>
                .ok (.some (.mk tVALUE (.param name) .none .none), s2)
            | _ => .error "Modelled: variable token without name"
        | tNUMERIC =>
            .ok (.some (.mk tLITERAL (.lit token.Value) .none .none), s2)
        | tSTRING =>
            .ok (.some (.mk tLITERAL (.lit token.Value) .none .none), s2)
        | tPATTERN =>
            .ok (.some (.mk tLITERAL (.lit token.Value) .none .none), s2)
        | tBOOLEAN =>
            .ok (.some (.mk tLITERAL (.lit token.Value) .none .none), s2)
        | tTIME =>
            match token.Value with
            | .time seconds =>
                .ok (.some (.mk tLITERAL (.lit (.num (seconds : Rat)))
                  .none .none), s2)
            | _ => .error "Modelled: time token without timestamp"
        | tPREF => planPref f s2.rewind
        | _ =>
            .error ("Unable to plan token kind: " ++ token.Kind.tString
              ++ ", value: " ++ goFormat token.Value)

/-- Plan entry planTokens from src/core/lexerState.go. -/
def planTokens : Nat → precedent
  | 0, _ => .error planFuelMsg
  | f + 1, stream =>
      if !stream.hasNext then .ok (.none, stream)
      else planSeparator f stream

end

/-- Spine node: the payload and (already reordered) left child of one
stage on a right spine. -/
structure SpineNode where
  symbol : tOperatorSymbol
  data : StageData
  left : OStage

/-- Rebuild the node chain of a mirrored run: after the in-place
swaps of mirrorStageSubtree the run nodes are linked through their
left pointers, the listed rights hang off each node, and the last
node receives the former left child of the root. -/
def chainStages :
    List ((tOperatorSymbol × StageData) × OStage) → OStage → OStage
  | [], _ => .none
  | [(p, r)], lastLeft => .some (.mk p.1 p.2 lastLeft r)
  | (p, r) :: rest, lastLeft => .some (.mk p.1 p.2 (chainStages rest lastLeft) r)

/-- Mirror of a same-precedence run, from mirrorStageSubtree in
src/core/lexerState.go.  The source mutates the k run nodes in place:
step 1 swaps every left with every right (the spine then runs through
the left pointers and node i holds its former left as its right);
step 2 swaps the last node's new left (the run tail) with the root's
new right (the root's former left); step 3 swaps the rights of nodes
i+1 and k-1-i, reversing the rights of nodes 1..k-1; step 4 swaps the
payloads of nodes i and k-1-i, reversing the payload order.  The same
permutation is produced here over the run decomposed into payload and
left-child lists plus the tail of the spine. -/
def mirrorStageSubtree (run : List SpineNode) (tail : OStage) : OStage :=
  let ps := (run.map fun n => (n.symbol, n.data)).reverse
  let ls := run.map (fun n => n.left)
  let rights := tail :: (ls.drop 1).reverse
  chainStages (ps.zip rights) (ls.headD OStage.none)

/-- Reattach one precedence run above a reordered tail: runs of length
at least two are mirrored (reorderStages calls mirrorStageSubtree only
then), a singleton keeps its node shape. -/
def attachRun (run : List SpineNode) (tail : OStage) : OStage :=
  match run with
  | [] => tail
  | [n] => .some (.mk n.symbol n.data n.left tail)
  | _ => mirrorStageSubtree run tail

/-- Group a spine into maximal consecutive runs of equal operator
precedence, as the traversal loop of reorderStages accumulates them. -/
def insertRun (n : SpineNode) : List (List SpineNode) → List (List SpineNode)
  | [] => [[n]]
  | [] :: rest => [n] :: rest
  | (m :: ms) :: rest =>
      if findOperatorPrecedenceForSymbol n.symbol
          = findOperatorPrecedenceForSymbol m.symbol then
        (n :: m :: ms) :: rest
      else
        [n] :: (m :: ms) :: rest

def runsByPrecedence (nodes : List SpineNode) : List (List SpineNode) :=
  nodes.foldr insertRun []

/-- Right-spine walk with reordering, from reorderStages in
src/core/lexerState.go: walk every stage of the right spine, recurse
into each left child first, collect maximal runs of equal precedence
and mirror every run of length at least two.  The first component is
the reordered stage, the second the spine decomposition consumed by
the caller when this stage sits on its parent's right spine. -/
def reorderWalk : evaluationStage → evaluationStage × List SpineNode
  | .mk symbol data l r =>
      let l2 : OStage :=
        match l with
        | .none => .none
        | .some ls => .some (reorderWalk ls).1
      let rest : List SpineNode :=
        match r with
        | .none => []
        | .some rs => (reorderWalk rs).2
      let nodes := (⟨symbol, data, l2⟩ : SpineNode) :: rest
      (((runsByPrecedence nodes).foldr attachRun OStage.none).getD
        (.mk symbol data l2 r), nodes)

/-- Stage reordering entry point (reorderStages in
src/core/lexerState.go). -/
def reorderStages (stage : evaluationStage) : evaluationStage :=
  (reorderWalk stage).1

/-- Constant folding of one stage, from elideStage in
src/core/lexerState.go: both children must exist and be literal
stages, the symbol must not be tSEPARATE or tIN, the child operators
and the type checks and the operator must all succeed; any failure
leaves the stage unchanged, success yields a fresh literal stage. -/
def elideStage (root : evaluationStage) : evaluationStage :=
  match root with
  | .mk symbol data l r =>
    match l, r with
    | .some lchild, .some rchild =>
      if rchild.symbol ≠ tLITERAL || lchild.symbol ≠ tLITERAL then root
      else
        match symbol with
        | tSEPARATE => root
        | tIN => root
        | _ =>
          match stageOperator emptyFuncs lchild.symbol lchild.data .null .null nilParams with
          | .error _ => root
          | .ok leftValue =>
            match stageOperator emptyFuncs rchild.symbol rchild.data .null .null nilParams with
            | .error _ => root
            | .ok rightValue =>
              let checks := findTypeChecks symbol
              let fmtStr := errorFormatForSymbol symbol
              match typeCheckFn checks.left leftValue symbol fmtStr with
              | .error _ => root
              | .ok _ =>
                match typeCheckFn checks.right rightValue symbol fmtStr with
                | .error _ => root
                | .ok _ =>
                  match checks.combined with
                  | some c =>
                    if !c leftValue rightValue then root
                    else
                      match stageOperator emptyFuncs symbol data leftValue rightValue nilParams with
                      | .error _ => root
                      | .ok result =>
                          .mk tLITERAL (.lit result) .none .none
                  | Option.none =>
                      match stageOperator emptyFuncs symbol data leftValue rightValue nilParams with
                      | .error _ => root
                      | .ok result =>
                          .mk tLITERAL (.lit result) .none .none
    | _, _ => root

/-- Post-order constant folding pass elideLiterals from
src/core/lexerState.go. -/
def elideLiterals : evaluationStage → evaluationStage
  | .mk symbol data l r =>
      let l2 : OStage :=
        match l with
        | .none => .none
        | .some ls => .some (elideLiterals ls)
      let r2 : OStage :=
        match r with
        | .none => .none
        | .some rs => .some (elideLiterals rs)
      elideStage (.mk symbol data l2 r2)

/-- Fuel supplied by the compile entry points; generously larger than
any possible number of planner steps for the list. -/
def defaultPlanFuel (tokens : List tExpressionToken) : Nat :=
  20 * tokens.length + 20

/-- Plan pipeline planStages from src/core/lexerState.go: plan, then
reorder same-precedence chains, then fold constants.  A nil planned
stage (empty token list) is returned as-is; the compiled pipeline
never reaches that case because the grammar checker rejects empty
expressions. -/
def planStages (tokens : List tExpressionToken) : Except String OStage :=
  let stream := newTokenStream tokens
  match planTokens (defaultPlanFuel tokens) stream with
  | .error e => .error e
  | .ok (.none, _) => .ok .none
  | .ok (.some stage, _) => .ok (.some (elideLiterals (reorderStages stage)))

/-- Result of the token optimizer: the two Go panics the source could
raise (indexing past the end after a regex comparator, asserting a
non-string comparator value) are explicit outcomes of the model. -/
inductive OptimizeResult where
  | ok (tokens : List tExpressionToken)
  | err (msg : String)
  | oobPanic
  | castPanic

/-- Iteration of optimizeTokens from src/core/TokenKind.go over the
token index: a comparator whose value maps to tREQ or tNREQ looks at
the following token and, when it is a string, replaces it with a
pattern token compiled by the regex oracle rc. -/
def optimizeLoop (rc : String → Except String Pattern)
    (tokens : List tExpressionToken) (index : Nat) : OptimizeResult :=
  if h : index < tokens.length then
    let token := tokens.get ⟨index, h⟩
    if token.Kind ≠ tCOMPARATOR then optimizeLoop rc tokens (index + 1)
    else
      match token.Value with
      | .str sv =>
        let symbol := lookupSymD comparatorSymbols sv
        if symbol ≠ tREQ && symbol ≠ tNREQ then optimizeLoop rc tokens (index + 1)
        else
          if h2 : index + 1 < tokens.length then
            let token2 := tokens.get ⟨index + 1, h2⟩
            if token2.Kind = tSTRING then
              match token2.Value with
              | .str sv2 =>
                match rc sv2 with
                | .error e => .err e
                | .ok p =>
                    optimizeLoop rc
                      (tokens.set (index + 1) ⟨tPATTERN, .pattern p⟩) (index + 1)
              | _ => .castPanic
            else optimizeLoop rc tokens (index + 1)
          else .oobPanic
      | _ => .castPanic
  else .ok tokens
termination_by tokens.length - index
decreasing_by
  all_goals simp_all
  all_goals omega

/-- Token optimizer optimizeTokens from src/core/TokenKind.go. -/
def optimizeTokens (rc : String → Except String Pattern)
    (tokens : List tExpressionToken) : OptimizeResult :=
  optimizeLoop rc tokens 0

def isoDateFormat : String := "2006-01-02T15:04:05.999999999Z0700"

/-- A compiled expression (tEvaluableExpression in part_001 of the
unnamed package files); the registered callables, which Go keeps
inside stage closures, live in the funcs environment here. -/
structure tEvaluableExpression where
  QueryDateFormat : String
  ChecksTypes : Bool
  tokens : List tExpressionToken
  evaluationStages : OStage
  inputExpression : String
  funcs : FuncEnv

/-- Lexing loop of parseTokens from src/core/TokenKind.go, carrying
the state row of the previous token; fueled because Go terminates by
the cursor advancing through the finite source, and parseTokens always
supplies enough fuel. -/
def parseTokensLoop (tryTime : String → Option Int) (functions : List String)
    (state : lexerState) (s : lexerStream) (acc : List tExpressionToken) :
    Nat → Except String (List tExpressionToken)
  | 0 => .error "Modelled: lex fuel exhausted"
  | fuel + 1 =>
    if s.canRead then
      match readToken tryTime functions state s with
      | .error e => .error e
      | .ok (token, found, s2) =>
        if !found then .ok acc
        else
          match getLexerStateForToken token.Kind with
          | .error e => .error e
          | .ok st2 => parseTokensLoop tryTime functions st2 s2 (acc ++ [token]) fuel
    else .ok acc

/-- Lexer entry parseTokens from src/core/TokenKind.go: scan all
tokens, then check the paren balance. -/
def parseTokens (tryTime : String → Option Int) (functions : List String)
    (expression : String) : Except String (List tExpressionToken) :=
  let stream := newLexerStream expression
  match parseTokensLoop tryTime functions (validLexerStates.headI) stream []
      (expression.length + 1) with
  | .error e => .error e
  | .ok ret =>
    match checkBalance ret with
    | .error e => .error e
    | .ok _ => .ok ret

/-- Compilation with functions, from
tNewEvaluableExpressionWithFunctions in part_001 of the unnamed
package files: lex, balance check, grammar check, token optimization,
stage planning; the two modelled optimizer panics surface as errors
here.  rc and tryTime are the external regexp and time oracles. -/
def tNewEvaluableExpressionWithFunctions
    (rc : String → Except String Pattern) (tryTime : String → Option Int)
    (functions : List (String × tExpressionFunction)) (expression : String) :
    Except String tEvaluableExpression :=
  match parseTokens tryTime (functions.map (fun p => p.1)) expression with
  | .error e => .error e
  | .ok tokens =>
    match checkBalance tokens with
    | .error e => .error e
    | .ok _ =>
      match checkExpressionGrammar tokens with
      | .error e => .error e
      | .ok _ =>
        match optimizeTokens rc tokens with
        | .err e => .error e
        | .oobPanic => .error "Modelled: Go panic, index out of range"
        | .castPanic => .error "Modelled: Go panic, interface conversion"
        | .ok tokens2 =>
          match planStages tokens2 with
          | .error e => .error e
          | .ok stages =>
              .ok { QueryDateFormat := isoDateFormat, ChecksTypes := true,
                    tokens := tokens2, evaluationStages := stages,
                    inputExpression := expression,
                    funcs := fun name =>
                      (functions.find? (fun p => p.1 = name)).map (fun p => p.2) }

/-- Compilation without functions (TNewEvaluableExpression in part_001
of the unnamed package files). -/
def TNewEvaluableExpression (rc : String → Except String Pattern)
    (tryTime : String → Option Int) (expression : String) :
    Except String tEvaluableExpression :=
  tNewEvaluableExpressionWithFunctions rc tryTime [] expression

/-- Inner evaluation tEval from part_001 of the unnamed package files:
nil stages yield nil, a nil parameter source is replaced by the dummy
map and a real one is wrapped in the sanitizing adapter. -/
def tEvaluableExpression.tEval (t : tEvaluableExpression)
    (parameters : Option tParameters) : Except String GoValue :=
  match t.evaluationStages with
  | .none => .ok .null
  | .some stages =>
    let ps : tParameters :=
      match parameters with
      | some p => sanitizedParameters p
      | Option.none => tDUMMY_PARAMETERS
    evaluateStage t.funcs t.ChecksTypes stages ps

/-- Public evaluation TEvaluate from part_001 of the unnamed package
files: a nil map stays nil, a real one is adapted. -/
def tEvaluableExpression.TEvaluate (t : tEvaluableExpression)
    (parameters : Option (List (String × GoValue))) : Except String GoValue :=
  match parameters with
  | Option.none => t.tEval Option.none
  | some m => t.tEval (some (tMapParameters m))

/-- Convenience entry point Eval from part_000 of the unnamed package
files: compile; on error return the boolean false; evaluate against a
nil parameter map; when the returned value is nil (which includes
every evaluation error, whose value result is always nil) return the
boolean false, otherwise return the value unchanged. -/
def Eval (rc : String → Except String Pattern) (tryTime : String → Option Int)
    (expression : String) : GoValue :=
  match TNewEvaluableExpression rc tryTime expression with
  | .error _ => .bool false
  | .ok expr =>
    match expr.TEvaluate Option.none with
    | .error _ => .bool false
    | .ok v => if v.isNull then .bool false else v

/-- Compile a token list through the planning passes and evaluate it
as the pipeline would (type checks on, no functions registered, dummy
parameter map). -/
def compileEvalTokens (tokens : List tExpressionToken) : Except String GoValue :=
  match planStages tokens with
  | .error e => .error e
  | .ok .none => .ok .null
  | .ok (.some st) => evaluateStage emptyFuncs true st tDUMMY_PARAMETERS

/-- Concrete regexp oracle for witnesses: every pattern compiles. -/
def rcAccept : String → Except String Pattern :=
  fun s => .ok ⟨s, fun _ => false⟩

/-- Concrete time oracle for witnesses: no string parses as a time. -/
def noTimeOracle : String → Option Int := fun _ => Option.none

/-- Claim predicate: every tNOOP stage of a tree has no left child. -/
def noopsOk : evaluationStage → Bool
  | .mk symbol _ l r =>
      (symbol ≠ tNOOP || l.isNone) &&
      (match l with | .none => true | .some ls => noopsOk ls) &&
      (match r with | .none => true | .some rs => noopsOk rs)

/-- Token list of the source text ((1)) with directly nested
parentheses. -/
def nestedClauseTokens : List tExpressionToken :=
  [⟨tCLAUSE, .char '('⟩, ⟨tCLAUSE, .char '('⟩, ⟨tNUMERIC, .num 1⟩,
   ⟨tCLAUSE_CLOSE, .char ')'⟩, ⟨tCLAUSE_CLOSE, .char ')'⟩]

/-- Well-formedness possessed by every planned tree: literal stages
are leaves. -/
def litLeaves : evaluationStage → Bool
  | .mk symbol _ l r =>
      (symbol ≠ tLITERAL || (l.isNone && r.isNone)) &&
      (match l with | .none => true | .some ls => litLeaves ls) &&
      (match r with | .none => true | .some rs => litLeaves rs)

/-- The folding claim's restriction: no variable, function or accessor
stages in the tree. -/
def noVarFuncAccess : evaluationStage → Bool
  | .mk symbol _ l r =>
      (symbol ≠ tVALUE && symbol ≠ tFUNCTIONAL && symbol ≠ tACCESS) &&
      (match l with | .none => true | .some ls => noVarFuncAccess ls) &&
      (match r with | .none => true | .some rs => noVarFuncAccess rs)

/-- The state row of a token kind; total because every kind has a row
in validLexerStates. -/
def stateForKind (kind : tTokenKind) : lexerState :=
  match getLexerStateForToken kind with
  | .ok st => st
  | .error _ => default

/-- Claim-side transition legality: walk the state chain from a start
row, requiring each token kind to be a valid next kind of the current
row. -/
def transitionsOK : lexerState → List tExpressionToken → Bool
  | _, [] => true
  | st, t :: rest => st.canTransitionTo t.Kind && transitionsOK (stateForKind t.Kind) rest

/-- Claim-side value condition: every token of a non-nullable kind
carries a non-nil value. -/
def valuesOK (tokens : List tExpressionToken) : Bool :=
  tokens.all fun t => (stateForKind t.Kind).isNullable || !t.Value.isNull

/-- The state reached after a token sequence: the row of the last
token, or the given start row for the empty sequence. -/
def stateAfter (st : lexerState) (tokens : List tExpressionToken) : lexerState :=
  match tokens.getLast? with
  | Option.none => st
  | some t => stateForKind t.Kind

/-- The previous token seen by the checker after a prefix: the last
token, or the zero token before any input. -/
def lastTokD (tokens : List tExpressionToken) : tExpressionToken :=
  tokens.getLastD ⟨tUNKNOWN, .null⟩

/-- Claim-side text of the transition error, with the undefined
function special case. -/
def transitionErrorMsg (st : lexerState) (lastToken token : tExpressionToken) : String :=
  if lastToken.Kind = tVARIABLE ∧ token.Kind = tCLAUSE then
    "Undefined function " ++ goFormat lastToken.Value
  else
    "Cannot transition token types from "
      ++ st.kind.tString ++ " [" ++ goFormat lastToken.Value ++ "]"
      ++ " to "
      ++ token.Kind.tString ++ " [" ++ goFormat token.Value ++ "]"

/-- Is this token a comparator whose value maps to the regex match or
regex mismatch operator? -/
def regexComparatorToken (t : tExpressionToken) : Bool :=
  t.Kind = tCOMPARATOR &&
    (match t.Value with
     | .str sv =>
         lookupSymD comparatorSymbols sv = tREQ
           || lookupSymD comparatorSymbols sv = tNREQ
     | _ => false)

/-- Claim-side single pass of the token optimizer, written from the
spec sentence: whenever a COMPARATOR valued =~ or !~ is followed by a
STRING token, compile the string and rewrite that follower to a
PATTERN carrying the compiled pattern; every other token is left
unchanged; compile errors surface as the result. -/
def optimizeSpec (rc : String → Except String Pattern) :
    Option tExpressionToken → List tExpressionToken →
    Except String (List tExpressionToken)
  | _, [] => .ok []
  | prev, t :: rest =>
      if (match prev with
          | some p => regexComparatorToken p
          | Option.none => false) && t.Kind = tSTRING then
        match t.Value with
        | .str s =>
          match rc s with
          | .error e => .error e
          | .ok p =>
            let t2 : tExpressionToken := ⟨tPATTERN, .pattern p⟩
            match optimizeSpec rc (some t2) rest with
            | .error e => .error e
            | .ok out => .ok (t2 :: out)
        | _ => .error "unreachable when string tokens carry strings"
      else
        match optimizeSpec rc (some t) rest with
        | .error e => .error e
        | .ok out => .ok (t :: out)

/-- Comparator and string tokens carry string values; every token list
the lexer produces satisfies this. -/
def stringValuesOK (tokens : List tExpressionToken) : Bool :=
  tokens.all fun t =>
    (t.Kind ≠ tCOMPARATOR && t.Kind ≠ tSTRING) || isString t.Value

/-- Identifier-shaped lexeme: a letter followed by letters, digits,
underscores or dots. -/
def isIdentifierLexeme (s : String) : Bool :=
  match s.data with
  | [] => false
  | c :: _ => c.isAlpha && s.data.all isVariableName

/-- C1: for every expression a op b op c with literal operands and one
operator op among -, /, %, **, << and >>, compiling the token list
through planning, reordering and constant folding and then evaluating
yields the same value and error outcome as compiling and evaluating
(a op b) op c: the reordering pass walks the right spine, collects the
run of equal precedence stages and mirrors it, so the leftmost source
operator is evaluated first. -/
theorem claim_C1 (op : String)
    (hop : op ∈ ["-", "/", "%", "**", "<<", ">>"]) (a b c : Rat) :
    compileEvalTokens
      [⟨tNUMERIC, .num a⟩, ⟨tMODIFIER, .str op⟩, ⟨tNUMERIC, .num b⟩,
       ⟨tMODIFIER, .str op⟩, ⟨tNUMERIC, .num c⟩]
    = compileEvalTokens
      [⟨tCLAUSE, .char '('⟩, ⟨tNUMERIC, .num a⟩, ⟨tMODIFIER, .str op⟩,
       ⟨tNUMERIC, .num b⟩, ⟨tCLAUSE_CLOSE, .char ')'⟩,
       ⟨tMODIFIER, .str op⟩, ⟨tNUMERIC, .num c⟩] := by
  simp only [List.mem_cons, List.not_mem_nil, or_false] at hop
  rcases hop with rfl | rfl | rfl | rfl | rfl | rfl <;>
    simp [compileEvalTokens, planStages, defaultPlanFuel, planTokens,
      planSeparator, planTernary, planLogicalOr, planLogicalAnd,
      planComparator, planBitwise, planShift, planAdditive,
      planMultiplicative, planExponential, planFunction, planAccessor,
      planValue, planPref, planPrecedenceLevel, newTokenStream,
      tokenStream.hasNext, tokenStream.next, tokenStream.rewind, lookupSym,
      List.find?, separatorSymbols, ternarySymbols, comparatorSymbols,
      bitwiseSymbols, bitwiseShiftSymbols, additiveSymbols,
      multiplicativeSymbols, exponentialSymbolsS, prefSymbols,
      reorderStages, reorderWalk, runsByPrecedence, insertRun, attachRun,
      mirrorStageSubtree, chainStages, findOperatorPrecedenceForSymbol,
      elideLiterals, elideStage, evaluationStage.symbol, evaluationStage.data,
      stageOperator, findTypeChecks, typeCheckFn, errorFormatForSymbol,
      isFloat64, emptyFuncs, nilParams, evaluateStage, evaluateOStage,
      evalCombine, shortCircuitStep, finishStage, OStage.isNone,
      evaluationStage.isShortCircuitable, GoValue.isBoolConst,
      GoValue.isHolder, GoValue.isNull,
      noopPrecedence, valuePrecedence, additivePrecedence,
      multiplicativePrecedence, exponentialPrecedence,
      bitwiseShiftPrecedence]

/-- Witness for C1 at op = -, a = 10, b = 3, c = 2. -/
theorem claim_C1_witness :
    compileEvalTokens
      [⟨tNUMERIC, .num 10⟩, ⟨tMODIFIER, .str "-"⟩, ⟨tNUMERIC, .num 3⟩,
       ⟨tMODIFIER, .str "-"⟩, ⟨tNUMERIC, .num 2⟩]
    = compileEvalTokens
      [⟨tCLAUSE, .char '('⟩, ⟨tNUMERIC, .num 10⟩, ⟨tMODIFIER, .str "-"⟩,
       ⟨tNUMERIC, .num 3⟩, ⟨tCLAUSE_CLOSE, .char ')'⟩,
       ⟨tMODIFIER, .str "-"⟩, ⟨tNUMERIC, .num 2⟩] :=
  claim_C1 "-" (by simp) 10 3 2

/-- C3: the evaluator evaluates the left child first and applies the
short-circuit rules before touching the right child: an AND stage with
false left yields false, an OR stage with true left yields true, a
COALESCE stage with non-nil left yields the left value, a TERNARY_TRUE
stage with false left yields the nil no-value, and a TERNARY_FALSE
stage with non-nil left yields the left value — in every case for an
arbitrary right child stage, which is never evaluated (its slot holds
the short-circuit sentinel instead). -/
theorem claim_C3 (funcs : FuncEnv) (ct : Bool) (p : tParameters)
    (d : StageData) (l r : evaluationStage) :
    (evaluateStage funcs ct l p = .ok (.bool false) →
      evaluateStage funcs ct (.mk tAND d (.some l) (.some r)) p = .ok (.bool false))
  ∧ (evaluateStage funcs ct l p = .ok (.bool true) →
      evaluateStage funcs ct (.mk tOR d (.some l) (.some r)) p = .ok (.bool true))
  ∧ (∀ v, evaluateStage funcs ct l p = .ok v → v.isNull = false →
      evaluateStage funcs ct (.mk tCOALESCE d (.some l) (.some r)) p = .ok v)
  ∧ (evaluateStage funcs ct l p = .ok (.bool false) →
      evaluateStage funcs ct (.mk tTERNARY_TRUE d (.some l) (.some r)) p = .ok .null)
  ∧ (∀ v, evaluateStage funcs ct l p = .ok v → v.isNull = false →
      evaluateStage funcs ct (.mk tTERNARY_FALSE d (.some l) (.some r)) p = .ok v) := by
  refine ⟨fun h => ?_, fun h => ?_, fun v h hv => ?_, fun h => ?_,
    fun v h hv => ?_⟩
  all_goals
    cases ct <;>
      simp [evaluateStage, evaluateOStage, evalCombine, shortCircuitStep,
        finishStage, OStage.isNone, evaluationStage.isShortCircuitable,
        evaluationStage.symbol, GoValue.isBoolConst, GoValue.isHolder,
        findTypeChecks, typeCheckFn, stageOperator, isBool, isString,
        isFloat64, isArray, isRegexOrString, comparatorTypeCheck,
        additionTypeCheck, errorFormatForSymbol, h, *]

/-- Witness for C3 at concrete stages: the right child is a parameter
stage whose lookup fails against the empty map, so the conjunct really
demonstrates that the right child is not evaluated. -/
theorem claim_C3_witness :
    evaluateStage emptyFuncs true
      (.mk tAND .none
        (.some (.mk tLITERAL (.lit (.bool false)) .none .none))
        (.some (.mk tVALUE (.param "boom") .none .none)))
      tDUMMY_PARAMETERS = .ok (.bool false) :=
  (claim_C3 emptyFuncs true tDUMMY_PARAMETERS .none
    (.mk tLITERAL (.lit (.bool false)) .none .none)
    (.mk tVALUE (.param "boom") .none .none)).1 rfl

/-- C5 (amended): Eval returns the boolean false when compilation
fails or when the evaluated value is nil — which covers every
evaluation failure, whose value result is always nil — and returns the
evaluated value unchanged whenever it is non-nil; a successful
evaluation whose value is nil is also collapsed to false. -/
theorem claim_C5 (rc : String → Except String Pattern)
    (tt : String → Option Int) (src : String) :
    ((∃ e, TNewEvaluableExpression rc tt src = .error e) →
        Eval rc tt src = .bool false)
  ∧ (∀ expr, TNewEvaluableExpression rc tt src = .ok expr →
      ((∃ e, expr.TEvaluate Option.none = .error e) →
          Eval rc tt src = .bool false)
    ∧ (expr.TEvaluate Option.none = .ok .null → Eval rc tt src = .bool false)
    ∧ (∀ v, expr.TEvaluate Option.none = .ok v → v.isNull = false →
          Eval rc tt src = v)) := by
  constructor
  · rintro ⟨e, he⟩
    simp [Eval, he]
  · intro expr hexpr
    refine ⟨?_, ?_, ?_⟩
    · rintro ⟨e, he⟩
      simp [Eval, hexpr, he]
    · intro he
      simp [Eval, hexpr, he, GoValue.isNull]
    · intro v hv hnull
      simp [Eval, hexpr, hv, hnull]

/-- Counterexample for C5 as stated: the source text () compiles
without error and evaluates without error, yet Eval returns the
boolean false instead of the evaluated (nil) result. -/
theorem claim_C5_counterexample :
    (TNewEvaluableExpression rcAccept noTimeOracle "()").isOk = true
  ∧ (TNewEvaluableExpression rcAccept noTimeOracle "()").map
      (fun expr => expr.TEvaluate Option.none) = .ok (.ok .null)
  ∧ Eval rcAccept noTimeOracle "()" = .bool false
  ∧ GoValue.null ≠ GoValue.bool false := by
  refine ⟨?_, ?_, ?_, fun h => GoValue.noConfusion h⟩ <;>
    simp [Eval, tEvaluableExpression.TEvaluate, tEvaluableExpression.tEval,
      TNewEvaluableExpression, tNewEvaluableExpressionWithFunctions,
      parseTokens, parseTokensLoop, newLexerStream, readToken,
      readUntilFalse, readTokenUntilFalse, lexerStream.canRead,
      lexerStream.rewind, isNumericChar, isNotQuote, isNotAlphanumeric,
      isVariableName, isNotClosingBracket, isHexDigitChar, getFirstRune,
      lookupSym, List.find?, prefSymbols, modifierSymbols, logicalSymbols,
      comparatorSymbols, ternarySymbols, getLexerStateForToken,
      validLexerStates, lexerState.canTransitionTo, checkBalance,
      noTimeOracle, List.headI, parseFloatLexeme, parseHexUint,
      checkExpressionGrammar, checkGrammarLoop, GoValue.isNull,
      optimizeTokens, optimizeLoop, lookupSymD,
      planStages, defaultPlanFuel, planTokens, planSeparator, planTernary,
      planLogicalOr, planLogicalAnd, planComparator, planBitwise, planShift,
      planAdditive, planMultiplicative, planExponential, planFunction,
      planAccessor, planValue, planPref, planPrecedenceLevel, newTokenStream,
      tokenStream.hasNext, tokenStream.next, tokenStream.rewind,
      separatorSymbols, bitwiseSymbols, bitwiseShiftSymbols, additiveSymbols,
      multiplicativeSymbols, exponentialSymbolsS,
      reorderStages, reorderWalk, runsByPrecedence, insertRun, attachRun,
      mirrorStageSubtree, chainStages, findOperatorPrecedenceForSymbol,
      elideLiterals, elideStage, evaluationStage.symbol, evaluationStage.data,
      noopPrecedence, valuePrecedence, evaluateStage, evaluateOStage,
      evalCombine, shortCircuitStep, finishStage, OStage.isNone,
      evaluationStage.isShortCircuitable, GoValue.isBoolConst,
      GoValue.isHolder, stageOperator, findTypeChecks, typeCheckFn,
      errorFormatForSymbol, emptyFuncs, tDUMMY_PARAMETERS, tMapParameters,
      sanitizedParameters, Except.map, Except.isOk, Except.toBool]

/-- Witness for C5 at the source text ( whose compilation fails with
the unbalanced parenthesis error. -/
theorem claim_C5_witness :
    Eval rcAccept noTimeOracle "(" = .bool false :=
  (claim_C5 rcAccept noTimeOracle "(").1 ⟨"Unbalanced parenthesis", by
    simp [TNewEvaluableExpression, tNewEvaluableExpressionWithFunctions,
      parseTokens, parseTokensLoop, newLexerStream, readToken,
      readUntilFalse, readTokenUntilFalse, lexerStream.canRead,
      lexerStream.rewind, isNumericChar, isNotQuote, isNotAlphanumeric,
      isVariableName, isNotClosingBracket, isHexDigitChar, getFirstRune,
      lookupSym, List.find?, prefSymbols, modifierSymbols, logicalSymbols,
      comparatorSymbols, ternarySymbols, getLexerStateForToken,
      validLexerStates, lexerState.canTransitionTo, checkBalance,
      noTimeOracle, List.headI, parseFloatLexeme, parseHexUint]⟩


theorem charCode_eq_iff {c d : Char} : c = d ↔ charCode c = charCode d := by
  constructor
  · intro h
    rw [h]
  · intro h
    exact Char.ext (UInt32.ext h)

theorem isAlpha_code {c : Char} (h : c.isAlpha = true) :
    (65 ≤ charCode c ∧ charCode c ≤ 90) ∨
    (97 ≤ charCode c ∧ charCode c ≤ 122) := by
  simp only [Char.isAlpha, Char.isUpper, Char.isLower, Bool.or_eq_true,
    Bool.and_eq_true, decide_eq_true_eq, UInt32.le_def, BitVec.le_def] at h
  exact h

theorem isVariableName_code {c : Char} (h : isVariableName c = true) :
    ((65 ≤ charCode c ∧ charCode c ≤ 90) ∨
     (97 ≤ charCode c ∧ charCode c ≤ 122)) ∨
    (48 ≤ charCode c ∧ charCode c ≤ 57) ∨
    charCode c = 95 ∨ charCode c = 46 := by
  simp only [isVariableName, Char.isAlpha, Char.isUpper, Char.isLower,
    Char.isDigit, Bool.or_eq_true, Bool.and_eq_true, decide_eq_true_eq,
    UInt32.le_def, BitVec.le_def] at h
  rcases h with (((h | h) | h) | h) | h
  · exact Or.inl (Or.inl h)
  · exact Or.inl (Or.inr h)
  · exact Or.inr (Or.inl h)
  · rw [h]
    refine Or.inr (Or.inr (Or.inl ?_))
    decide
  · rw [h]
    refine Or.inr (Or.inr (Or.inr ?_))
    decide

theorem isVariableName_not_ws {c : Char} (h : isVariableName c = true) :
    c.isWhitespace = false := by
  have hv := isVariableName_code h
  simp only [Char.isWhitespace, Bool.or_eq_false_iff,
    decide_eq_false_iff_not, charCode_eq_iff]
  refine ⟨⟨⟨?_, ?_⟩, ?_⟩, ?_⟩ <;> intro hc <;> rw [hc] at hv <;>
    revert hv <;> decide

theorem isVariableName_not_backslash {c : Char} (h : isVariableName c = true) :
    ¬(c = Char.ofNat 92) := by
  intro hc
  have hv := isVariableName_code h
  rw [charCode_eq_iff] at hc
  rw [hc] at hv
  revert hv
  decide

theorem isAlpha_head_facts {c : Char} (h : c.isAlpha = true) :
    c.isWhitespace = false ∧ isNumericChar c = false ∧ (c = ',') = False ∧
    (c = '[') = False ∧ isNotQuote c = true ∧ (c = '.') = False := by
  have hv := isAlpha_code h
  refine ⟨?_, ?_, ?_, ?_, ?_, ?_⟩
  · simp only [Char.isWhitespace, Bool.or_eq_false_iff,
      decide_eq_false_iff_not, charCode_eq_iff]
    refine ⟨⟨⟨?_, ?_⟩, ?_⟩, ?_⟩ <;> intro hc <;> rw [hc] at hv <;>
      revert hv <;> decide
  · simp only [isNumericChar, Char.isDigit, Bool.or_eq_false_iff,
      Bool.and_eq_false_iff, decide_eq_false_iff_not, UInt32.le_def,
      BitVec.le_def, charCode_eq_iff]
    constructor
    · show ¬((UInt32.toBitVec 48).toNat ≤ charCode c) ∨
        ¬(charCode c ≤ (UInt32.toBitVec 57).toNat)
      have e1 : (UInt32.toBitVec 48).toNat = 48 := rfl
      have e2 : (UInt32.toBitVec 57).toNat = 57 := rfl
      rw [e1, e2]
      omega
    · intro hc
      rw [hc] at hv
      revert hv
      decide
  · simp only [eq_iff_iff, iff_false, charCode_eq_iff]
    intro hc
    rw [hc] at hv
    revert hv
    decide
  · simp only [eq_iff_iff, iff_false, charCode_eq_iff]
    intro hc
    rw [hc] at hv
    revert hv
    decide
  · simp only [isNotQuote, Bool.and_eq_true, ne_eq, decide_eq_true_eq,
      charCode_eq_iff]
    constructor <;> intro hc <;> rw [hc] at hv <;> revert hv <;> decide
  · simp only [eq_iff_iff, iff_false, charCode_eq_iff]
    intro hc
    rw [hc] at hv
    revert hv
    decide

theorem readUntilFalse_all : ∀ (k : Nat) (data : List Char) (i : Nat) (buf : String),
    data.length - i = k → i ≤ data.length →
    (∀ c ∈ data.drop i, isVariableName c = true) →
    readUntilFalse ⟨data, i⟩ false true true isVariableName buf =
      (⟨buf.data ++ data.drop i⟩, false, ⟨data, data.length⟩)
  | 0, data, i, buf, hk, hle, hall => by
      have hi : i = data.length := by omega
      subst hi
      rw [readUntilFalse]
      simp [List.drop_length]
  | (k+1), data, i, buf, hk, hle, hall => by
      have hi : i < data.length := by omega
      have hdrop : data.drop i = data[i] :: data.drop (i+1) :=
        List.drop_eq_getElem_cons hi
      have hc : isVariableName data[i] = true :=
        hall _ (hdrop ▸ List.mem_cons_self _ _)
      have hnb := isVariableName_not_backslash hc
      have hnw := isVariableName_not_ws hc
      have hbs : ¬(data[i] = '\\') := by
        intro hx
        exact hnb (hx.trans (by decide))
      rw [readUntilFalse]
      rw [dif_pos hi]
      have hgetD : data.getD i (Char.ofNat 0) = data[i] :=
        List.getD_eq_getElem data (Char.ofNat 0) hi
      simp only [hgetD, hbs, hnw, hc, Bool.true_and, Bool.and_false,
        Bool.false_and, decide_False, if_false, Bool.false_eq_true,
        if_true, decide_True, and_false, false_and, ite_false, ite_true]
      rw [readUntilFalse_all k data (i+1) (buf.push data[i]) (by omega) (by omega)
        (fun c hm => hall c (by rw [hdrop]; exact List.mem_cons_of_mem _ hm))]
      rcases buf with ⟨bl⟩
      rw [hdrop]
      simp [String.push]

theorem readToken_identifier (tt : String → Option Int) (functions : List String)
    (state : lexerState) (c : Char) (rest : List Char)
    (hA : c.isAlpha = true)
    (hall : ∀ d ∈ c :: rest, isVariableName d = true) :
    readToken tt functions state ⟨c :: rest, 0⟩ =
      classifyIdentifier functions ⟨c :: rest⟩ ⟨c :: rest, (c :: rest).length⟩ := by
  obtain ⟨hw, hn, hcm, hbr, -, -⟩ := isAlpha_head_facts hA
  rw [readToken]
  rw [dif_pos (by simp : (0 : Nat) < (c :: rest).length)]
  simp only [List.getD, List.getD_cons_zero, List.get?_cons_zero, Option.getD_some,
    hw, hn, hcm, hbr, hA, Bool.false_eq_true, if_false, if_true, ite_false,
    ite_true, eq_iff_iff, iff_false, decide_False, decide_True]
  rw [readTokenUntilFalse]
  have hrw : (⟨c :: rest, 0 + 1⟩ : lexerStream).rewind 1 = ⟨c :: rest, 0⟩ := by
    simp [lexerStream.rewind]
  rw [hrw]
  rw [readUntilFalse_all ((c :: rest).length) (c :: rest) 0 "" (by simp) (by simp)
    (by simpa using hall)]
  rfl

/-- C8: an identifier lexeme (a letter followed by letters, digits, underscore
or dot) that is not a boolean literal, not a registered function name and
contains no dot is lexed as the textual in comparator exactly when the lexeme
is "in" or "tIN" (the source also maps the lexeme tIN to the comparator), and
as a VARIABLE token carrying the lexeme in every other case. -/
theorem claim_C8 (tt : String → Option Int) (functions : List String)
    (state : lexerState) (c : Char) (rest : List Char)
    (hA : c.isAlpha = true)
    (hall : ∀ d ∈ c :: rest, isVariableName d = true)
    (hb : String.mk (c :: rest) ≠ "true")
    (hf : String.mk (c :: rest) ≠ "false")
    (hfn : functions.contains (String.mk (c :: rest)) = false)
    (hdot : (c :: rest).contains '.' = false) :
    readToken tt functions state ⟨c :: rest, 0⟩ =
      (if String.mk (c :: rest) = "in" ∨ String.mk (c :: rest) = "tIN" then
        Except.ok (⟨tCOMPARATOR, .str "in"⟩, true, ⟨c :: rest, (c :: rest).length⟩)
      else
        Except.ok (⟨tVARIABLE, .str (String.mk (c :: rest))⟩, true,
          ⟨c :: rest, (c :: rest).length⟩)) := by
  rw [readToken_identifier tt functions state c rest hA hall]
  have hdot2 : ¬('.' = c ∨ '.' ∈ rest) := by simpa using hdot
  by_cases hin : String.mk (c :: rest) = "in"
  · rw [if_pos (Or.inl hin)]
    rw [hin] at hfn ⊢
    have hfn2 : ¬(("in" : String) ∈ functions) := by simpa using hfn
    simp +decide [classifyIdentifier, hfn2]
  · by_cases htin : String.mk (c :: rest) = "tIN"
    · rw [if_pos (Or.inr htin)]
      rw [htin] at hfn ⊢
      have hfn2 : ¬(("tIN" : String) ∈ functions) := by simpa using hfn
      simp +decide [classifyIdentifier, hfn2]
    · rw [if_neg (by tauto)]
      have hfn2 : ¬(String.mk (c :: rest) ∈ functions) := by simpa using hfn
      simp [classifyIdentifier, hdot2, hb, hf, hfn2, hin, htin]

theorem claim_C8_counterexample :
    readToken (fun _ => Option.none) [] validLexerStates.headI ⟨['t','I','N'], 0⟩ =
      Except.ok (⟨tCOMPARATOR, .str "in"⟩, true, ⟨['t','I','N'], 3⟩) ∧
    ("tIN" : String) ≠ "in" ∧ (['t','I','N'].contains '.') = false ∧
    ('t').isAlpha = true ∧ (∀ d ∈ ['t','I','N'], isVariableName d = true) := by
  refine ⟨?_, by decide, by decide, by decide, by decide⟩
  rw [readToken_identifier (fun _ => Option.none) [] validLexerStates.headI
    't' ['I','N'] (by decide) (by decide)]
  simp +decide [classifyIdentifier]

theorem claim_C8_witness :
    readToken (fun _ => Option.none) [] validLexerStates.headI ⟨['f','o','o'], 0⟩ =
      Except.ok (⟨tVARIABLE, .str ⟨['f','o','o']⟩⟩, true, ⟨['f','o','o'], 3⟩) := by
  have h := claim_C8 (fun _ => Option.none) [] validLexerStates.headI 'f' ['o','o']
    (by decide) (by decide) (by decide) (by decide) (by decide) (by decide)
  rw [if_neg (by decide)] at h
  simpa using h

/-- C7: an identifier lexeme containing a dot (after its first character) is
lexed as an ACCESSOR token carrying the ordered dot-separated segment list
exactly when it has no trailing dot and every segment after the first has a
first character unchanged by uppercase conversion; it is a lex error exactly
when the lexeme ends with a dot or some later segment's first character
changes under uppercase conversion. -/
theorem claim_C7 (tt : String → Option Int) (functions : List String)
    (state : lexerState) (c : Char) (rest : List Char)
    (hA : c.isAlpha = true)
    (hall : ∀ d ∈ c :: rest, isVariableName d = true)
    (hdot : (c :: rest).contains '.' = true) :
    (readToken tt functions state ⟨c :: rest, 0⟩ =
        Except.ok (⟨tACCESSOR, .strList (splitOnChar '.' (String.mk (c :: rest)))⟩,
          true, ⟨c :: rest, (c :: rest).length⟩) ↔
      (¬ ((c :: rest).getLast? = some '.') ∧
        ∀ seg ∈ (splitOnChar '.' (String.mk (c :: rest))).drop 1,
          (getFirstRune seg).toUpper = getFirstRune seg)) ∧
    ((∃ e, readToken tt functions state ⟨c :: rest, 0⟩ = Except.error e) ↔
      ((c :: rest).getLast? = some '.' ∨
        ∃ seg ∈ (splitOnChar '.' (String.mk (c :: rest))).drop 1,
          (getFirstRune seg).toUpper ≠ getFirstRune seg)) := by
  rw [readToken_identifier tt functions state c rest hA hall]
  have hcne : ¬(c = '.') := by
    have hx := (isAlpha_head_facts hA).2.2.2.2.2
    simp [hx]
  have hidx : (String.mk (c :: rest)).data.indexOf '.' ≠ 0 := by
    simp only [List.indexOf_cons]
    have hcb : (c == '.') = false := by simp [hcne]
    simp [hcb]
  have hdot2 : '.' = c ∨ '.' ∈ rest := by simpa using hdot
  by_cases hend : (c :: rest).getLast? = some '.'
  · simp [classifyIdentifier, hdot2, hidx, hend]
  · rcases hfind : ((splitOnChar '.' (String.mk (c :: rest))).tail).find?
        (fun seg => (getFirstRune seg).toUpper != getFirstRune seg) with - | seg
    · have hallseg : ∀ seg ∈ (splitOnChar '.' (String.mk (c :: rest))).tail,
          (getFirstRune seg).toUpper = getFirstRune seg := by
        intro seg hm
        have hh := List.find?_eq_none.mp hfind seg hm
        simpa using hh
      simp [classifyIdentifier, hdot2, hidx, hend, hfind]
      exact hallseg
    · have hmem := List.mem_of_find?_eq_some hfind
      have hpred : (getFirstRune seg).toUpper ≠ getFirstRune seg := by
        have hh := List.find?_some hfind
        simpa using hh
      constructor
      · simp [classifyIdentifier, hdot2, hidx, hend, hfind]
        first
        | exact fun hx => absurd (hx seg hmem) hpred
        | exact ⟨seg, hmem, hpred⟩
        | (intro hx; exact absurd (hx seg hmem) hpred)
      · simp [classifyIdentifier, hdot2, hidx, hend, hfind]
        first
        | exact ⟨seg, hmem, hpred⟩
        | exact Or.inr ⟨seg, hmem, hpred⟩
        | exact fun hx => absurd (hx seg hmem) hpred

theorem claim_C7_counterexample :
    readToken (fun _ => Option.none) [] validLexerStates.headI
        ⟨['u','s','e','r','.','1','x'], 0⟩ =
      Except.ok (⟨tACCESSOR, .strList ["user", "1x"]⟩, true,
        ⟨['u','s','e','r','.','1','x'], 7⟩) ∧
    ('1').isUpper = false ∧ getFirstRune "1x" = '1' := by
  refine ⟨?_, by decide, by decide⟩
  rw [readToken_identifier (fun _ => Option.none) [] validLexerStates.headI
    'u' ['s','e','r','.','1','x'] (by decide) (by decide)]
  simp +decide [classifyIdentifier, getFirstRune, splitOnChar, splitOnCharAux]

theorem claim_C7_witness :
    readToken (fun _ => Option.none) [] validLexerStates.headI
        ⟨['u','s','e','r','.','N'], 0⟩ =
      Except.ok (⟨tACCESSOR,
          .strList (splitOnChar '.' (String.mk ['u','s','e','r','.','N']))⟩, true,
        ⟨['u','s','e','r','.','N'], 6⟩) ∧
    (['u','s','e','r','.','N'].contains '.') = true := by
  have h := claim_C7 (fun _ => Option.none) [] validLexerStates.headI
    'u' ['s','e','r','.','N'] (by decide) (by decide) (by decide)
  refine ⟨?_, by decide⟩
  have hx := h.1.mpr (by decide)
  simpa using hx


end GEval
